import Mathlib

/-!
Shallow embedding of `hexaviz` (src/hexaviz/__init__.py): a mesh of
components, domains, resources and connections, with a snapshot
projection (`as_dict`).  Python `OrderedDict`s are modelled as
association lists with insert-at-end / update-in-place semantics;
Python `set`s as duplicate-free lists; a raised exception is modelled
as `some err` paired with the state at the moment the exception
escapes (mutations performed before the raise are kept, as in Python).
-/

namespace Hexaviz

/-- Error conditions.  The first six mirror the exception classes the
library defines; `keyError` and `attributeError` model raw Python
`KeyError` / `AttributeError` escaping a call without being wrapped. -/
inductive Err where
  | duplicateEntry
  | invalidComponent
  | invalidDomain
  | invalidPort
  | invalidConnection
  | invalidResource
  | keyError
  | attributeError
deriving DecidableEq, Repr

/-- Ordered-dict lookup over an association list. -/
def odLookup {κ α : Type} [DecidableEq κ] (l : List (κ × α)) (k : κ) : Option α :=
  match l with
  | [] => none
  | (k', v) :: rest => if k' = k then some v else odLookup rest k

/-- Ordered-dict assignment: update in place when the key exists,
append at the end otherwise (CPython `OrderedDict.__setitem__`). -/
def odSet {κ α : Type} [DecidableEq κ] (l : List (κ × α)) (k : κ) (v : α) : List (κ × α) :=
  match l with
  | [] => [(k, v)]
  | (k', v') :: rest => if k' = k then (k, v) :: rest else (k', v') :: odSet rest k v

/-- Set insertion modelled on a duplicate-free list. -/
def setInsert {α : Type} [DecidableEq α] (l : List α) (x : α) : List α :=
  if x ∈ l then l else l ++ [x]

/-- Python truthiness of an optional string (`if component.parent:`). -/
def pyTruthy : Option String → Bool
  | none => false
  | some s => s ≠ ""

/-- `ComponentNode`: name, port lists, highlight flag, optional parent. -/
structure ComponentNode where
  name : String
  needs_ports : List String
  provides_ports : List String
  highlighted : Bool
  parent : Option String
deriving DecidableEq, Repr

/-- `DomainNode`: its `__init__` does not create `parent`; `highlighted`
here models the attribute `highlight_component` may create dynamically
(it is never read back by any other operation or by `as_dict`). -/
structure DomainNode where
  name : String
  needs_ports : List String
  provides_ports : List String
  children : List String
  highlighted : Bool
deriving DecidableEq, Repr

/-- A value stored in `Mesh.components` (components and domains share
the one ordered dict). -/
inductive Node where
  | comp : ComponentNode → Node
  | dom : DomainNode → Node
deriving DecidableEq, Repr

def Node.needs_ports : Node → List String
  | .comp c => c.needs_ports
  | .dom d => d.needs_ports

def Node.provides_ports : Node → List String
  | .comp c => c.provides_ports
  | .dom d => d.provides_ports

/-- `label_for_needs`: a plain component uses its name, a domain its
name suffixed with `__needs`. -/
def Node.label_for_needs : Node → String
  | .comp c => c.name
  | .dom d => d.name ++ "__needs"

/-- `label_for_provides`: a plain component uses its name, a domain its
name suffixed with `__provides`. -/
def Node.label_for_provides : Node → String
  | .comp c => c.name
  | .dom d => d.name ++ "__provides"

/-- `ComponentNode.add_needs_port` (inherited unchanged by `DomainNode`):
duplicate port names are rejected, otherwise the port is appended. -/
def Node.add_needs_port : Node → String → Except Err Node
  | .comp c, p =>
      if p ∈ c.needs_ports then .error .duplicateEntry
      else .ok (.comp { c with needs_ports := c.needs_ports ++ [p] })
  | .dom d, p =>
      if p ∈ d.needs_ports then .error .duplicateEntry
      else .ok (.dom { d with needs_ports := d.needs_ports ++ [p] })

/-- `ComponentNode.add_provides_port` (inherited unchanged by `DomainNode`). -/
def Node.add_provides_port : Node → String → Except Err Node
  | .comp c, p =>
      if p ∈ c.provides_ports then .error .duplicateEntry
      else .ok (.comp { c with provides_ports := c.provides_ports ++ [p] })
  | .dom d, p =>
      if p ∈ d.provides_ports then .error .duplicateEntry
      else .ok (.dom { d with provides_ports := d.provides_ports ++ [p] })

/-- Unconditional append used by the expose operations after their own
membership guard (the guard makes the duplicate check unreachable). -/
def Node.appendNeeds : Node → String → Node
  | .comp c, p => .comp { c with needs_ports := c.needs_ports ++ [p] }
  | .dom d, p => .dom { d with needs_ports := d.needs_ports ++ [p] }

def Node.appendProvides : Node → String → Node
  | .comp c, p => .comp { c with provides_ports := c.provides_ports ++ [p] }
  | .dom d, p => .dom { d with provides_ports := d.provides_ports ++ [p] }

def Node.setHighlighted : Node → Node
  | .comp c => .comp { c with highlighted := true }
  | .dom d => .dom { d with highlighted := true }

/-- Producer half of a connection key: either a `(component, port)`
anchor tuple or a resource name (a Python tuple never equals a string). -/
inductive ProdKey where
  | anchor : String → String → ProdKey
  | res : String → ProdKey
deriving DecidableEq, Repr

/-- The four connection classes: `ConnectionNode`,
`DomainNeedsConnectionNode`, `DomainProvidesConnectionNode`,
`ResourceConnectionNode`. -/
inductive ConnectionNode where
  | plain (consumer : String × String) (producer : String × String) (highlighted : Bool)
  | domainNeeds (consumer : String × String) (producer : String × String) (highlighted : Bool)
  | domainProvides (consumer : String × String) (producer : String × String) (highlighted : Bool)
  | resourceConn (consumer : String × String) (producer : String) (highlighted : Bool)
deriving DecidableEq, Repr

def ConnectionNode.setHighlighted : ConnectionNode → ConnectionNode
  | .plain c p _ => .plain c p true
  | .domainNeeds c p _ => .domainNeeds c p true
  | .domainProvides c p _ => .domainProvides c p true
  | .resourceConn c r _ => .resourceConn c r true

abbrev ConnKey := (String × String) × ProdKey

/-- The `Mesh` aggregate state. -/
structure Mesh where
  components : List (String × Node)
  connections : List (ConnKey × ConnectionNode)
  resources : List String
  highlighted_resource : List String
  connected_consumers : List (String × String)
deriving DecidableEq, Repr

def Mesh.empty : Mesh := ⟨[], [], [], [], []⟩

/-- `Mesh._add_connection_between_consumer_and_producer`. -/
def Mesh.addBetween (m : Mesh) (consumer : String × String) (producerKey : ProdKey)
    (node : ConnectionNode) : Option Err × Mesh :=
  if consumer ∈ m.connected_consumers then (some .invalidConnection, m)
  else
    (none, { m with
      connections := odSet m.connections (consumer, producerKey) node,
      connected_consumers := setInsert m.connected_consumers consumer })

/-- `Mesh.add_needs_port`: the component lookup is bare subscripting, so
a missing name escapes as a raw `KeyError`. -/
def Mesh.add_needs_port (m : Mesh) (c p : String) : Option Err × Mesh :=
  match odLookup m.components c with
  | none => (some .keyError, m)
  | some node =>
    match node.add_needs_port p with
    | .error e => (some e, m)
    | .ok node' => (none, { m with components := odSet m.components c node' })

/-- `Mesh.add_provides_port` (same bare lookup). -/
def Mesh.add_provides_port (m : Mesh) (c p : String) : Option Err × Mesh :=
  match odLookup m.components c with
  | none => (some .keyError, m)
  | some node =>
    match node.add_provides_port p with
    | .error e => (some e, m)
    | .ok node' => (none, { m with components := odSet m.components c node' })

/-- The `for port_name in needs:` loop of `add_component`: an exception
from an iteration escapes, keeping the state mutated so far. -/
def Mesh.addPortsLoop (f : Mesh → String → String → Option Err × Mesh) (m : Mesh)
    (c : String) : List String → Option Err × Mesh
  | [] => (none, m)
  | p :: ps =>
    match f m c p with
    | (none, m') => Mesh.addPortsLoop f m' c ps
    | (some e, m') => (some e, m')

/-- `Mesh.add_component`: duplicate-name check, then the node is stored,
then the two port loops run (so a port error leaves the node stored). -/
def Mesh.add_component (m : Mesh) (name : String) (needs provides : List String) :
    Option Err × Mesh :=
  if (odLookup m.components name).isSome then (some .duplicateEntry, m)
  else
    let m1 : Mesh :=
      { m with components := odSet m.components name (.comp ⟨name, [], [], false, none⟩) }
    match Mesh.addPortsLoop Mesh.add_needs_port m1 name needs with
    | (some e, m2) => (some e, m2)
    | (none, m2) => Mesh.addPortsLoop Mesh.add_provides_port m2 name provides

/-- `Mesh.add_resource`. -/
def Mesh.add_resource (m : Mesh) (r : String) : Option Err × Mesh :=
  if r ∈ m.resources then (some .duplicateEntry, m)
  else (none, { m with resources := m.resources ++ [r] })

/-- `Mesh.add_domain`. -/
def Mesh.add_domain (m : Mesh) (name : String) : Option Err × Mesh :=
  if (odLookup m.components name).isSome then (some .duplicateEntry, m)
  else (none, { m with components := odSet m.components name (.dom ⟨name, [], [], [], false⟩) })

/-- `Mesh.add_connection`: consumer lookup/port check, producer
lookup/port check, then storage under the export labels. -/
def Mesh.add_connection (m : Mesh) (cc cp pc pp : String) : Option Err × Mesh :=
  match odLookup m.components cc with
  | none => (some .invalidComponent, m)
  | some consumer =>
    if cp ∉ consumer.needs_ports then (some .invalidPort, m)
    else
      match odLookup m.components pc with
      | none => (some .invalidComponent, m)
      | some producer =>
        if pp ∉ producer.provides_ports then (some .invalidPort, m)
        else
          m.addBetween (consumer.label_for_needs, cp)
            (.anchor producer.label_for_provides pp)
            (.plain (consumer.label_for_needs, cp) (producer.label_for_provides, pp) false)

/-- `Mesh.add_connection_to_resource`. -/
def Mesh.add_connection_to_resource (m : Mesh) (cc cp r : String) : Option Err × Mesh :=
  match odLookup m.components cc with
  | none => (some .invalidComponent, m)
  | some consumer =>
    if cp ∉ consumer.needs_ports then (some .invalidPort, m)
    else if r ∉ m.resources then (some .invalidResource, m)
    else
      m.addBetween (consumer.label_for_needs, cp) (.res r)
        (.resourceConn (consumer.label_for_needs, cp) r false)

/-- `Mesh.add_component_to_domain`: the parent link is written before
the children update, so a failure in `add_child_component` (including
the `AttributeError` when the "domain" is a plain component) leaves the
parent set. -/
def Mesh.add_component_to_domain (m : Mesh) (c d : String) : Option Err × Mesh :=
  match odLookup m.components c with
  | none => (some .invalidComponent, m)
  | some (.dom _) => (some .invalidComponent, m)
  | some (.comp comp) =>
    if pyTruthy comp.parent then (some .duplicateEntry, m)
    else
      match odLookup m.components d with
      | none => (some .invalidDomain, m)
      | some dnode =>
        let m1 : Mesh :=
          { m with components := odSet m.components c (.comp { comp with parent := some d }) }
        match dnode with
        | .comp _ => (some .attributeError, m1)
        | .dom dn =>
          if c ∈ dn.children then (some .duplicateEntry, m1)
          else
            (none, { m1 with
              components := odSet m1.components d (.dom { dn with children := setInsert dn.children c }) })

/-- `Mesh.expose_component_needs_port`: the domain's needs-port list is
(possibly) extended before the consumer check, so `InvalidConnection`
can leave the domain port stored.  A `DomainNode` argument hits the
missing `parent` attribute (`AttributeError`). -/
def Mesh.expose_component_needs_port (m : Mesh) (c p : String) : Option Err × Mesh :=
  match odLookup m.components c with
  | none => (some .invalidComponent, m)
  | some node =>
    if p ∉ node.needs_ports then (some .invalidPort, m)
    else
      match node with
      | .dom _ => (some .attributeError, m)
      | .comp comp =>
        match comp.parent with
        | none => (some .invalidDomain, m)
        | some pname =>
          match odLookup m.components pname with
          | none => (some .invalidDomain, m)
          | some dnode =>
            if p ∈ dnode.needs_ports then
              m.addBetween (c, p) (.anchor dnode.label_for_needs p)
                (.domainNeeds (c, p) (dnode.label_for_needs, p) false)
            else
              let dnode' := dnode.appendNeeds p
              let m1 : Mesh := { m with components := odSet m.components pname dnode' }
              m1.addBetween (c, p) (.anchor dnode'.label_for_needs p)
                (.domainNeeds (c, p) (dnode'.label_for_needs, p) false)

/-- `Mesh.expose_component_provides_port`: a second exposure of the same
domain provides-port is rejected with `DuplicateEntry`; on the success
path the domain port is stored before the consumer check. -/
def Mesh.expose_component_provides_port (m : Mesh) (c p : String) : Option Err × Mesh :=
  match odLookup m.components c with
  | none => (some .invalidComponent, m)
  | some node =>
    if p ∉ node.provides_ports then (some .invalidPort, m)
    else
      match node with
      | .dom _ => (some .attributeError, m)
      | .comp comp =>
        match comp.parent with
        | none => (some .invalidDomain, m)
        | some pname =>
          match odLookup m.components pname with
          | none => (some .invalidDomain, m)
          | some dnode =>
            if p ∈ dnode.provides_ports then (some .duplicateEntry, m)
            else
              let dnode' := dnode.appendProvides p
              let m1 : Mesh := { m with components := odSet m.components pname dnode' }
              m1.addBetween (dnode'.label_for_provides, p) (.anchor c p)
                (.domainProvides (dnode'.label_for_provides, p) (c, p) false)

/-- `Mesh.highlight_component`. -/
def Mesh.highlight_component (m : Mesh) (c : String) : Option Err × Mesh :=
  match odLookup m.components c with
  | none => (some .invalidComponent, m)
  | some node => (none, { m with components := odSet m.components c node.setHighlighted })

/-- `Mesh.highlight_connection`: exact-key lookup under the raw argument
names. -/
def Mesh.highlight_connection (m : Mesh) (cc cp pc pp : String) : Option Err × Mesh :=
  match odLookup m.connections ((cc, cp), .anchor pc pp) with
  | none => (some .invalidConnection, m)
  | some cn =>
    (none, { m with connections := odSet m.connections ((cc, cp), .anchor pc pp) cn.setHighlighted })

/-- `Mesh.highlight_connection_to_resource`. -/
def Mesh.highlight_connection_to_resource (m : Mesh) (cc cp r : String) : Option Err × Mesh :=
  match odLookup m.connections ((cc, cp), .res r) with
  | none => (some .invalidConnection, m)
  | some cn =>
    (none, { m with connections := odSet m.connections ((cc, cp), .res r) cn.setHighlighted })

/-- `Mesh.highlight_resource`. -/
def Mesh.highlight_resource (m : Mesh) (r : String) : Option Err × Mesh :=
  if r ∉ m.resources then (some .invalidResource, m)
  else (none, { m with highlighted_resource := setInsert m.highlighted_resource r })

/-! ### Snapshot (`as_dict`) -/

/-- Dict produced by `ComponentNode.as_dict`; the optional
`highlighted` key is encoded as a `Bool` (absent ≡ `false`). -/
structure ComponentDict where
  name : String
  needs_ports : List String
  provides_ports : List String
  highlighted : Bool
deriving DecidableEq, Repr

/-- Dict produced by `DomainNode.as_dict`. -/
structure DomainDict where
  name : String
  needs_ports : List String
  provides_ports : List String
  children : List String
  label_for_needs : String
  label_for_provides : String
deriving DecidableEq, Repr

/-- Dict produced by a connection's `as_dict`: `domain_export` is the
tag `DomainNeedsConnectionNode` / `DomainProvidesConnectionNode` add,
`resEdge` is `ResourceConnectionNode`'s shape. -/
inductive ConnDict where
  | edge (consumer_component consumer_port producer_component producer_port : String)
      (highlighted : Bool) (domain_export : Option String)
  | resEdge (consumer_component consumer_port resource : String) (highlighted : Bool)
deriving DecidableEq, Repr

/-- Dict produced by `Mesh.as_dict`; the optional
`highlighted_resources` key is encoded as a list (absent ≡ `[]`). -/
structure MeshDict where
  components : List ComponentDict
  domains : List DomainDict
  connections : List ConnDict
  resources : List String
  highlighted_resources : List String
deriving DecidableEq, Repr

def ComponentNode.as_dict (c : ComponentNode) : ComponentDict :=
  ⟨c.name, c.needs_ports, c.provides_ports, c.highlighted⟩

def DomainNode.as_dict (d : DomainNode) : DomainDict :=
  ⟨d.name, d.needs_ports, d.provides_ports, d.children,
    d.name ++ "__needs", d.name ++ "__provides"⟩

def ConnectionNode.as_dict : ConnectionNode → ConnDict
  | .plain c p h => .edge c.1 c.2 p.1 p.2 h none
  | .domainNeeds c p h => .edge c.1 c.2 p.1 p.2 h (some "needs")
  | .domainProvides c p h => .edge c.1 c.2 p.1 p.2 h (some "provides")
  | .resourceConn c r h => .resEdge c.1 c.2 r h

def Mesh.as_dict (m : Mesh) : MeshDict :=
  { components := m.components.filterMap (fun kv =>
      match kv.2 with
      | .comp c => some c.as_dict
      | .dom _ => none),
    domains := m.components.filterMap (fun kv =>
      match kv.2 with
      | .comp _ => none
      | .dom d => some d.as_dict),
    connections := m.connections.map (fun kv => kv.2.as_dict),
    resources := m.resources,
    highlighted_resources := m.highlighted_resource }

/-! ### Operation traces -/

/-- One call of the public mutating API. -/
inductive Op where
  | addComponent (name : String) (needs provides : List String)
  | addDomain (name : String)
  | addResource (name : String)
  | addNeedsPort (c p : String)
  | addProvidesPort (c p : String)
  | addConnection (cc cp pc pp : String)
  | addConnectionToResource (cc cp r : String)
  | addComponentToDomain (c d : String)
  | exposeNeeds (c p : String)
  | exposeProvides (c p : String)
  | highlightComponent (c : String)
  | highlightConnection (cc cp pc pp : String)
  | highlightConnectionToResource (cc cp r : String)
  | highlightResource (r : String)
deriving DecidableEq, Repr

def Mesh.apply (m : Mesh) : Op → Option Err × Mesh
  | .addComponent n ns ps => m.add_component n ns ps
  | .addDomain n => m.add_domain n
  | .addResource n => m.add_resource n
  | .addNeedsPort c p => m.add_needs_port c p
  | .addProvidesPort c p => m.add_provides_port c p
  | .addConnection cc cp pc pp => m.add_connection cc cp pc pp
  | .addConnectionToResource cc cp r => m.add_connection_to_resource cc cp r
  | .addComponentToDomain c d => m.add_component_to_domain c d
  | .exposeNeeds c p => m.expose_component_needs_port c p
  | .exposeProvides c p => m.expose_component_provides_port c p
  | .highlightComponent c => m.highlight_component c
  | .highlightConnection cc cp pc pp => m.highlight_connection cc cp pc pp
  | .highlightConnectionToResource cc cp r => m.highlight_connection_to_resource cc cp r
  | .highlightResource r => m.highlight_resource r

/-- Post-state of a call whether or not it signalled an error (the
caller may catch the exception; the mesh keeps whatever was stored). -/
def Mesh.step (m : Mesh) (o : Op) : Mesh := (m.apply o).2

def Mesh.run (m : Mesh) : List Op → Mesh
  | [] => m
  | o :: os => (m.step o).run os

/-- Needs-port list of the node stored under a name (empty when absent). -/
def Mesh.needsOf (m : Mesh) (c : String) : List String :=
  match odLookup m.components c with
  | some n => n.needs_ports
  | none => []

/-- Provides-port list of the node stored under a name (empty when absent). -/
def Mesh.providesOf (m : Mesh) (c : String) : List String :=
  match odLookup m.components c with
  | some n => n.provides_ports
  | none => []

/-- The operations whose implementations finish every validation before
storing anything.  `add_component` (stores the node before its port
loops), `add_component_to_domain` (stores the parent link before the
children update), and the two expose operations (store the domain port
before the consumer check) are excluded. -/
def Op.checkThenStore : Op → Prop
  | .addComponent _ _ _ => False
  | .addComponentToDomain _ _ => False
  | .exposeNeeds _ _ => False
  | .exposeProvides _ _ => False
  | _ => True

/-- A mesh with a domain `D` holding children `A` and `B`, both with a
needs port `n` and a provides port `q`. -/
def exposeWitnessMesh : Mesh :=
  Mesh.empty.run [.addComponent "A" ["n"] ["q"], .addComponent "B" ["n"] ["q"],
    .addDomain "D", .addComponentToDomain "A" "D", .addComponentToDomain "B" "D"]

/-- In-place update of the node stored under a key, applying `g`; the
mesh is unchanged when the key is absent or `g` declines.  Shape shared
by the port-adding, highlighting and parent/children-updating paths. -/
def updComp (m : Mesh) (c : String) (g : Node → Option Node) : Mesh :=
  match odLookup m.components c with
  | none => m
  | some n =>
    match g n with
    | none => m
    | some n' => { m with components := odSet m.components c n' }

/-- In-place highlight of the connection stored under a key. -/
def updConn (m : Mesh) (k : ConnKey) : Mesh :=
  match odLookup m.connections k with
  | none => m
  | some cn => { m with connections := odSet m.connections k cn.setHighlighted }

/-- Operations that only modify entries that already exist (no entry is
ever created in an ordered collection). -/
def Op.updateOnly : Op → Bool
  | .addNeedsPort _ _ => true
  | .addProvidesPort _ _ => true
  | .addComponentToDomain _ _ => true
  | .highlightComponent _ => true
  | .highlightConnection _ _ _ _ => true
  | .highlightConnectionToResource _ _ _ => true
  | .highlightResource _ => true
  | _ => false

def Op.isHighlightResource : Op → Bool
  | .highlightResource _ => true
  | _ => false

/-- Every component/domain/resource name an operation mentions. -/
def Op.touchedNames : Op → List String
  | .addComponent n _ _ => [n]
  | .addDomain n => [n]
  | .addResource n => [n]
  | .addNeedsPort c _ => [c]
  | .addProvidesPort c _ => [c]
  | .addConnection cc _ pc _ => [cc, pc]
  | .addConnectionToResource cc _ r => [cc, r]
  | .addComponentToDomain c d => [c, d]
  | .exposeNeeds c _ => [c]
  | .exposeProvides c _ => [c]
  | .highlightComponent c => [c]
  | .highlightConnection cc _ pc _ => [cc, pc]
  | .highlightConnectionToResource cc _ r => [cc, r]
  | .highlightResource r => [r]

/-- Adjacent independence: both operations are update-only, they touch
disjoint names, and they are not both resource highlights (the
highlighted-resource collection is insertion-ordered). -/
def Op.indepUpdates (o1 o2 : Op) : Prop :=
  o1.updateOnly = true ∧ o2.updateOnly = true ∧
  (∀ x ∈ o1.touchedNames, x ∉ o2.touchedNames) ∧
  ¬(o1.isHighlightResource = true ∧ o2.isHighlightResource = true)

/-! ### Association-list lemmas -/

theorem odLookup_odSet {κ α : Type} [DecidableEq κ] (l : List (κ × α)) (k k' : κ) (v : α) :
    odLookup (odSet l k v) k' = if k = k' then some v else odLookup l k' := by
  induction l with
  | nil => simp [odSet, odLookup]
  | cons hd tl ih =>
    obtain ⟨a, b⟩ := hd
    by_cases hak : a = k
    · subst hak
      by_cases hkk : a = k'
      · simp [odSet, odLookup, hkk]
      · simp [odSet, odLookup, hkk]
    · by_cases hak' : a = k'
      · subst hak'
        have hka : ¬(k = a) := fun h => hak h.symm
        simp [odSet, odLookup, hak, hka]
      · simp [odSet, odLookup, hak, hak', ih]

theorem odLookup_odSet_self {κ α : Type} [DecidableEq κ] (l : List (κ × α)) (k : κ) (v : α) :
    odLookup (odSet l k v) k = some v := by
  simp [odLookup_odSet]

theorem odLookup_odSet_ne {κ α : Type} [DecidableEq κ] (l : List (κ × α)) (k k' : κ) (v : α)
    (h : k ≠ k') : odLookup (odSet l k v) k' = odLookup l k' := by
  simp [odLookup_odSet, h]

theorem mem_of_odLookup {κ α : Type} [DecidableEq κ] (l : List (κ × α)) (k : κ) (v : α)
    (h : odLookup l k = some v) : (k, v) ∈ l := by
  induction l with
  | nil => simp [odLookup] at h
  | cons hd tl ih =>
    obtain ⟨a, b⟩ := hd
    by_cases hak : a = k
    · subst hak
      simp [odLookup] at h
      simp [h]
    · simp [odLookup, hak] at h
      exact List.mem_cons_of_mem _ (ih h)

/-- Updates at two distinct keys commute when the first key is present
(two fresh insertions would append in different orders). -/
theorem odSet_odSet_comm {κ α : Type} [DecidableEq κ] (l : List (κ × α)) (k k' : κ) (v v' : α)
    (h : k ≠ k') (hk : (odLookup l k).isSome) :
    odSet (odSet l k v) k' v' = odSet (odSet l k' v') k v := by
  induction l with
  | nil => simp [odLookup] at hk
  | cons hd tl ih =>
    obtain ⟨a, b⟩ := hd
    by_cases hak : a = k
    · subst hak
      have h' : ¬(a = k') := h
      simp [odSet, h']
    · by_cases hak' : a = k'
      · subst hak'
        simp [odSet, hak]
      · simp only [odLookup, if_neg hak] at hk
        simp [odSet, hak, hak', ih hk]

/-! ### C3 — adding a port to a missing name -/

/-- C3 counterexample: on an empty mesh, `add_needs_port` for an absent
name signals the raw `KeyError` lookup failure, which is not the
`InvalidComponent` condition the claim requires. -/
theorem add_port_missing_name_not_invalidComponent :
    (Mesh.empty.add_needs_port "A" "n").1 = some Err.keyError ∧
    (Mesh.empty.add_provides_port "A" "n").1 = some Err.keyError ∧
    Err.keyError ≠ Err.invalidComponent := by decide

/-- C3 (amended): for every mesh and every name not present in the
component/domain namespace, `add_needs_port` and `add_provides_port`
signal the raw lookup failure (Python `KeyError`, outside the library's
exception taxonomy) rather than `InvalidComponent`, and leave the mesh
unchanged; no other error escapes. -/
theorem add_port_missing_name_keyError (m : Mesh) (name p : String)
    (h : odLookup m.components name = none) :
    m.add_needs_port name p = (some Err.keyError, m) ∧
    m.add_provides_port name p = (some Err.keyError, m) := by
  constructor <;> simp [Mesh.add_needs_port, Mesh.add_provides_port, h]

theorem add_port_missing_name_keyError_witness :
    Mesh.empty.add_needs_port "A" "n" = (some Err.keyError, Mesh.empty) ∧
    Mesh.empty.add_provides_port "A" "n" = (some Err.keyError, Mesh.empty) :=
  add_port_missing_name_keyError Mesh.empty "A" "n" (by decide)

/-! ### C6 — name uniqueness per namespace -/

/-- C6: reusing a name within its own namespace (components and domains
share one, resources have their own) signals `DuplicateEntry` and
leaves the mesh unchanged, while a name used only in the other
namespace is not rejected. -/
theorem namespace_uniqueness (m : Mesh) (name : String) (ns ps : List String) :
    ((odLookup m.components name).isSome →
      m.add_component name ns ps = (some Err.duplicateEntry, m) ∧
      m.add_domain name = (some Err.duplicateEntry, m)) ∧
    (name ∈ m.resources → m.add_resource name = (some Err.duplicateEntry, m)) ∧
    (odLookup m.components name = none →
      (m.add_component name [] []).1 = none ∧ (m.add_domain name).1 = none) ∧
    (name ∉ m.resources → (m.add_resource name).1 = none) := by
  refine ⟨fun h => ?_, fun h => ?_, fun h => ?_, fun h => ?_⟩
  · constructor <;> simp [Mesh.add_component, Mesh.add_domain, h]
  · simp [Mesh.add_resource, h]
  · constructor <;> simp [Mesh.add_component, Mesh.add_domain, Mesh.addPortsLoop, h]
  · simp [Mesh.add_resource, h]

theorem namespace_uniqueness_witness :
    ((Mesh.empty.step (.addComponent "A" [] [])).step (.addResource "R")).add_component "A" ["x"] []
      = (some Err.duplicateEntry, (Mesh.empty.step (.addComponent "A" [] [])).step (.addResource "R")) ∧
    (((Mesh.empty.step (.addComponent "A" [] [])).step (.addResource "R")).add_resource "A").1 = none ∧
    (((Mesh.empty.step (.addComponent "A" [] [])).step (.addResource "R")).add_component "R" [] []).1 = none := by
  refine ⟨((namespace_uniqueness _ "A" ["x"] []).1 (by decide)).1, ?_, ?_⟩
  · exact (namespace_uniqueness _ "A" [] []).2.2.2 (by decide)
  · exact ((namespace_uniqueness _ "R" [] []).2.2.1 (by decide)).1

/-! ### C1 — fail-fast atomicity -/

/-- C1 counterexample: `add_component` with a duplicate port inside its
own argument list signals `DuplicateEntry` but leaves the mesh mutated
(the component is stored, with the first copy of the port). -/
theorem error_partial_mutation_counterexample :
    (Mesh.empty.add_component "A" ["n", "n"] []).1 = some Err.duplicateEntry ∧
    (Mesh.empty.add_component "A" ["n", "n"] []).2 ≠ Mesh.empty := by decide

/-- C1 (amended): every mutating operation other than `add_component`,
`add_component_to_domain`, `expose_component_needs_port` and
`expose_component_provides_port` leaves the mesh exactly as it was
whenever it signals an error; those four may leave a partial mutation
(a stored component with a partial port list, a parent link, or a
domain port) when a later step of the same call fails. -/
theorem error_leaves_mesh_unchanged (m : Mesh) (o : Op) (hsafe : o.checkThenStore) (e : Err) :
    (m.apply o).1 = some e → (m.apply o).2 = m := by
  cases o with
  | addComponent n ns ps => exact absurd hsafe (by simp [Op.checkThenStore])
  | addComponentToDomain c d => exact absurd hsafe (by simp [Op.checkThenStore])
  | exposeNeeds c p => exact absurd hsafe (by simp [Op.checkThenStore])
  | exposeProvides c p => exact absurd hsafe (by simp [Op.checkThenStore])
  | addDomain n =>
    by_cases h : (odLookup m.components n).isSome <;>
      simp [Mesh.apply, Mesh.add_domain, h]
  | addResource n =>
    by_cases h : n ∈ m.resources <;> simp [Mesh.apply, Mesh.add_resource, h]
  | addNeedsPort c p =>
    cases hl : odLookup m.components c with
    | none => simp [Mesh.apply, Mesh.add_needs_port, hl]
    | some node =>
      cases ha : node.add_needs_port p with
      | error e' => simp [Mesh.apply, Mesh.add_needs_port, hl, ha]
      | ok node' => simp [Mesh.apply, Mesh.add_needs_port, hl, ha]
  | addProvidesPort c p =>
    cases hl : odLookup m.components c with
    | none => simp [Mesh.apply, Mesh.add_provides_port, hl]
    | some node =>
      cases ha : node.add_provides_port p with
      | error e' => simp [Mesh.apply, Mesh.add_provides_port, hl, ha]
      | ok node' => simp [Mesh.apply, Mesh.add_provides_port, hl, ha]
  | addConnection cc cp pc pp =>
    cases hc : odLookup m.components cc with
    | none => simp [Mesh.apply, Mesh.add_connection, hc]
    | some consumer =>
      by_cases hcp : cp ∈ consumer.needs_ports
      · cases hp : odLookup m.components pc with
        | none => simp [Mesh.apply, Mesh.add_connection, hc, hcp, hp]
        | some producer =>
          by_cases hpp : pp ∈ producer.provides_ports
          · by_cases hcon : (consumer.label_for_needs, cp) ∈ m.connected_consumers <;>
              simp [Mesh.apply, Mesh.add_connection, Mesh.addBetween, hc, hcp, hp, hpp, hcon]
          · simp [Mesh.apply, Mesh.add_connection, hc, hcp, hp, hpp]
      · simp [Mesh.apply, Mesh.add_connection, hc, hcp]
  | addConnectionToResource cc cp r =>
    cases hc : odLookup m.components cc with
    | none => simp [Mesh.apply, Mesh.add_connection_to_resource, hc]
    | some consumer =>
      by_cases hcp : cp ∈ consumer.needs_ports
      · by_cases hr : r ∈ m.resources
        · by_cases hcon : (consumer.label_for_needs, cp) ∈ m.connected_consumers <;>
            simp [Mesh.apply, Mesh.add_connection_to_resource, Mesh.addBetween, hc, hcp, hr, hcon]
        · simp [Mesh.apply, Mesh.add_connection_to_resource, hc, hcp, hr]
      · simp [Mesh.apply, Mesh.add_connection_to_resource, hc, hcp]
  | highlightComponent c =>
    cases hl : odLookup m.components c with
    | none => simp [Mesh.apply, Mesh.highlight_component, hl]
    | some node => simp [Mesh.apply, Mesh.highlight_component, hl]
  | highlightConnection cc cp pc pp =>
    cases hl : odLookup m.connections ((cc, cp), .anchor pc pp) with
    | none => simp [Mesh.apply, Mesh.highlight_connection, hl]
    | some cn => simp [Mesh.apply, Mesh.highlight_connection, hl]
  | highlightConnectionToResource cc cp r =>
    cases hl : odLookup m.connections ((cc, cp), .res r) with
    | none => simp [Mesh.apply, Mesh.highlight_connection_to_resource, hl]
    | some cn => simp [Mesh.apply, Mesh.highlight_connection_to_resource, hl]
  | highlightResource r =>
    by_cases h : r ∈ m.resources <;> simp [Mesh.apply, Mesh.highlight_resource, h]

theorem error_leaves_mesh_unchanged_witness :
    ((Mesh.empty.step (.addComponent "A" [] [])).apply (.addDomain "A")).1
      = some Err.duplicateEntry ∧
    ((Mesh.empty.step (.addComponent "A" [] [])).apply (.addDomain "A")).2
      = Mesh.empty.step (.addComponent "A" [] []) :=
  ⟨by decide,
    error_leaves_mesh_unchanged (Mesh.empty.step (.addComponent "A" [] []))
      (.addDomain "A") (by trivial) Err.duplicateEntry (by decide)⟩

/-! ### C9 — adding a component to a plain-component "domain" -/

/-- C9: when the target of `add_component_to_domain` exists but is a
plain component, the existence check passes (one shared lookup table),
so no `InvalidDomain` is signalled; the child's parent is set first and
the call then fails with a raw `AttributeError` (outside the library's
exception taxonomy), leaving the parent assignment in place. -/
theorem add_component_to_plain_component_domain (m : Mesh) (c d : String)
    (cc dc : ComponentNode)
    (hc : odLookup m.components c = some (.comp cc))
    (hp : cc.parent = none)
    (hd : odLookup m.components d = some (.comp dc)) :
    (m.add_component_to_domain c d).1 = some Err.attributeError ∧
    (m.add_component_to_domain c d).1 ≠ some Err.invalidDomain ∧
    odLookup (m.add_component_to_domain c d).2.components c
      = some (.comp { cc with parent := some d }) := by
  have h := hd
  refine ⟨?_, ?_, ?_⟩ <;>
    simp [Mesh.add_component_to_domain, hc, hp, pyTruthy, hd, odLookup_odSet_self]

theorem add_component_to_plain_component_domain_witness :
    ((Mesh.empty.run [.addComponent "A" [] [], .addComponent "B" [] []]).add_component_to_domain
        "A" "B").1 = some Err.attributeError ∧
    odLookup ((Mesh.empty.run [.addComponent "A" [] [], .addComponent "B" [] []]).add_component_to_domain
        "A" "B").2.components "A"
      = some (.comp ⟨"A", [], [], false, some "B"⟩) := by
  have h := add_component_to_plain_component_domain
    (Mesh.empty.run [.addComponent "A" [] [], .addComponent "B" [] []]) "A" "B"
    ⟨"A", [], [], false, none⟩ ⟨"B", [], [], false, none⟩ (by decide) (by decide) (by decide)
  exact ⟨h.1, h.2.2⟩

/-! ### C10 — export labels in stored connections -/

theorem connDict_mem_of_odLookup (m : Mesh) (k : ConnKey) (cn : ConnectionNode)
    (h : odLookup m.connections k = some cn) : cn.as_dict ∈ m.as_dict.connections := by
  have hm := mem_of_odLookup _ _ _ h
  simp only [Mesh.as_dict]
  exact List.mem_map.mpr ⟨(k, cn), hm, rfl⟩

theorem string_append_needs_ne (s : String) : s ++ "__needs" ≠ s := by
  intro h
  have := congrArg String.length h
  simp [String.length_append] at this
  exact absurd this (by decide)

theorem string_append_provides_ne (s : String) : s ++ "__provides" ≠ s := by
  intro h
  have := congrArg String.length h
  simp [String.length_append] at this
  exact absurd this (by decide)

/-- C10: a successful `add_connection` stores and reports its endpoints
under each node's export label: a domain named `D` appears as
`D ++ "__needs"` on the consumer side and `D ++ "__provides"` on the
producer side (never as the raw `D`), while a plain component appears
under its exact name. -/
theorem connection_endpoints_use_export_labels (m m' : Mesh) (cc cp pc pp : String)
    (ncc npc : Node)
    (hcc : odLookup m.components cc = some ncc)
    (hpc : odLookup m.components pc = some npc)
    (hsucc : m.add_connection cc cp pc pp = (none, m')) :
    ConnDict.edge ncc.label_for_needs cp npc.label_for_provides pp false none
      ∈ m'.as_dict.connections ∧
    (∀ d : DomainNode, Node.label_for_needs (.dom d) = d.name ++ "__needs" ∧
      d.name ++ "__needs" ≠ d.name ∧
      Node.label_for_provides (.dom d) = d.name ++ "__provides" ∧
      d.name ++ "__provides" ≠ d.name) ∧
    (∀ c : ComponentNode, Node.label_for_needs (.comp c) = c.name ∧
      Node.label_for_provides (.comp c) = c.name) := by
  refine ⟨?_, fun d => ⟨rfl, string_append_needs_ne d.name, rfl, string_append_provides_ne d.name⟩,
    fun c => ⟨rfl, rfl⟩⟩
  by_cases hcp : cp ∈ ncc.needs_ports
  · by_cases hpp : pp ∈ npc.provides_ports
    · by_cases hcon : (ncc.label_for_needs, cp) ∈ m.connected_consumers
      · simp [Mesh.add_connection, Mesh.addBetween, hcc, hpc, hcp, hpp, hcon] at hsucc
      · simp only [Mesh.add_connection, Mesh.addBetween, hcc, hpc,
          if_neg (not_not_intro hcp), if_neg (not_not_intro hpp), if_neg hcon,
          Prod.mk.injEq] at hsucc
        rcases hsucc with ⟨-, hm'⟩
        subst hm'
        refine connDict_mem_of_odLookup _
          ((ncc.label_for_needs, cp), ProdKey.anchor npc.label_for_provides pp)
          (ConnectionNode.plain (ncc.label_for_needs, cp) (npc.label_for_provides, pp) false) ?_
        exact odLookup_odSet_self _ _ _
    · simp [Mesh.add_connection, hcc, hpc, hcp, hpp] at hsucc
  · simp [Mesh.add_connection, hcc, hcp] at hsucc

theorem connection_endpoints_use_export_labels_witness :
    ConnDict.edge ("D" ++ "__needs") "n" "B" "p" false none
      ∈ ((Mesh.empty.run [.addDomain "D", .addNeedsPort "D" "n",
          .addComponent "B" [] ["p"]]).add_connection "D" "n" "B" "p").2.as_dict.connections ∧
    "D" ++ "__needs" ≠ "D" := by
  have h := connection_endpoints_use_export_labels
    (Mesh.empty.run [.addDomain "D", .addNeedsPort "D" "n", .addComponent "B" [] ["p"]])
    ((Mesh.empty.run [.addDomain "D", .addNeedsPort "D" "n",
        .addComponent "B" [] ["p"]]).add_connection "D" "n" "B" "p").2
    "D" "n" "B" "p" (.dom ⟨"D", ["n"], [], [], false⟩) (.comp ⟨"B", [], ["p"], false, none⟩)
    (by decide) (by decide)
    (Prod.ext_iff.mpr ⟨by decide, rfl⟩)
  exact ⟨h.1, (h.2.1 ⟨"D", ["n"], [], [], false⟩).2.1⟩

/-! ### C2 — highlighting connections -/

theorem add_connection_success (m m' : Mesh) (cc cp pc pp : String) (ncc npc : Node)
    (hcc : odLookup m.components cc = some ncc)
    (hpc : odLookup m.components pc = some npc)
    (hsucc : m.add_connection cc cp pc pp = (none, m')) :
    m' = { m with
      connections := odSet m.connections
        ((ncc.label_for_needs, cp), .anchor npc.label_for_provides pp)
        (.plain (ncc.label_for_needs, cp) (npc.label_for_provides, pp) false),
      connected_consumers := setInsert m.connected_consumers (ncc.label_for_needs, cp) } := by
  by_cases hcp : cp ∈ ncc.needs_ports
  · by_cases hpp : pp ∈ npc.provides_ports
    · by_cases hcon : (ncc.label_for_needs, cp) ∈ m.connected_consumers
      · simp [Mesh.add_connection, Mesh.addBetween, hcc, hpc, hcp, hpp, hcon] at hsucc
      · simp only [Mesh.add_connection, Mesh.addBetween, hcc, hpc,
          if_neg (not_not_intro hcp), if_neg (not_not_intro hpp), if_neg hcon,
          Prod.mk.injEq] at hsucc
        exact hsucc.2.symm
    · simp [Mesh.add_connection, hcc, hpc, hcp, hpp] at hsucc
  · simp [Mesh.add_connection, hcc, hcp] at hsucc

theorem add_connection_to_resource_success (m m' : Mesh) (cc cp r : String) (ncc : Node)
    (hcc : odLookup m.components cc = some ncc)
    (hsucc : m.add_connection_to_resource cc cp r = (none, m')) :
    m' = { m with
      connections := odSet m.connections ((ncc.label_for_needs, cp), .res r)
        (.resourceConn (ncc.label_for_needs, cp) r false),
      connected_consumers := setInsert m.connected_consumers (ncc.label_for_needs, cp) } := by
  by_cases hcp : cp ∈ ncc.needs_ports
  · by_cases hr : r ∈ m.resources
    · by_cases hcon : (ncc.label_for_needs, cp) ∈ m.connected_consumers
      · simp [Mesh.add_connection_to_resource, Mesh.addBetween, hcc, hcp, hr, hcon] at hsucc
      · simp only [Mesh.add_connection_to_resource, Mesh.addBetween, hcc,
          if_neg (not_not_intro hcp), if_neg (not_not_intro hr), if_neg hcon,
          Prod.mk.injEq] at hsucc
        exact hsucc.2.symm
    · simp [Mesh.add_connection_to_resource, hcc, hcp, hr] at hsucc
  · simp [Mesh.add_connection_to_resource, hcc, hcp] at hsucc

/-- C2 counterexample: with a domain as the consumer endpoint,
`add_connection('D','n','B','p')` succeeds (the edge is stored under
the export label `D__needs`), yet `highlight_connection` with the very
same arguments signals `InvalidConnection`, because it looks up the raw
names. -/
theorem highlight_connection_raw_names_counterexample :
    ((Mesh.empty.run [.addDomain "D", .addNeedsPort "D" "n",
        .addComponent "B" [] ["p"]]).add_connection "D" "n" "B" "p").1 = none ∧
    (((Mesh.empty.run [.addDomain "D", .addNeedsPort "D" "n",
        .addComponent "B" [] ["p"]]).add_connection "D" "n" "B" "p").2.highlight_connection
        "D" "n" "B" "p").1 = some Err.invalidConnection := by decide

/-- C2 (amended): when the two endpoints are plain components (whose
export labels equal their names), `highlight_connection(c,cp,p,pp)`
succeeds after a successful `add_connection(c,cp,p,pp)` and the
snapshot entry carries `highlighted = true`.  In general, each
highlight operation signals `InvalidConnection` exactly when no
connection is stored under the exact (label-based) key it looks up —
for a domain endpoint that stored key uses the export label, not the
raw name (see the counterexample).  The same holds for
`highlight_connection_to_resource` against `add_connection_to_resource`. -/
theorem highlight_connection_after_add (m m' : Mesh) (cc cp pc pp : String)
    (a b : ComponentNode)
    (hcc : odLookup m.components cc = some (.comp a)) (ha : a.name = cc)
    (hpc : odLookup m.components pc = some (.comp b)) (hb : b.name = pc)
    (hsucc : m.add_connection cc cp pc pp = (none, m')) :
    ((m'.highlight_connection cc cp pc pp).1 = none ∧
      ConnDict.edge cc cp pc pp true none
        ∈ (m'.highlight_connection cc cp pc pp).2.as_dict.connections) ∧
    (∀ (n : Mesh) (c1 p1 c2 p2 : String),
      (n.highlight_connection c1 p1 c2 p2).1 = some Err.invalidConnection ↔
        odLookup n.connections ((c1, p1), .anchor c2 p2) = none) ∧
    (∀ (n : Mesh) (c1 p1 rr : String),
      (n.highlight_connection_to_resource c1 p1 rr).1 = some Err.invalidConnection ↔
        odLookup n.connections ((c1, p1), .res rr) = none) ∧
    (∀ (n n' : Mesh) (c1 p1 rr : String) (a1 : ComponentNode),
      odLookup n.components c1 = some (.comp a1) → a1.name = c1 →
      n.add_connection_to_resource c1 p1 rr = (none, n') →
      (n'.highlight_connection_to_resource c1 p1 rr).1 = none ∧
      ConnDict.resEdge c1 p1 rr true
        ∈ (n'.highlight_connection_to_resource c1 p1 rr).2.as_dict.connections) := by
  refine ⟨?_, ?_, ?_, ?_⟩
  · subst ha hb
    have hchar := add_connection_success m m' a.name cp b.name pp _ _ hcc hpc hsucc
    subst hchar
    have hkey : odLookup
        (odSet m.connections ((Node.label_for_needs (.comp a), cp),
          .anchor (Node.label_for_provides (.comp b)) pp)
          (.plain (Node.label_for_needs (.comp a), cp) (Node.label_for_provides (.comp b), pp) false))
        ((a.name, cp), .anchor b.name pp)
        = some (.plain (a.name, cp) (b.name, pp) false) := odLookup_odSet_self _ _ _
    constructor
    · simp [Mesh.highlight_connection, hkey]
    · simp only [Mesh.highlight_connection, hkey]
      refine connDict_mem_of_odLookup _ ((a.name, cp), .anchor b.name pp)
        (ConnectionNode.plain (a.name, cp) (b.name, pp) true) ?_
      exact odLookup_odSet_self _ _ _
  · intro n c1 p1 c2 p2
    cases hl : odLookup n.connections ((c1, p1), .anchor c2 p2) with
    | none => simp [Mesh.highlight_connection, hl]
    | some cn => simp [Mesh.highlight_connection, hl]
  · intro n c1 p1 rr
    cases hl : odLookup n.connections ((c1, p1), .res rr) with
    | none => simp [Mesh.highlight_connection_to_resource, hl]
    | some cn => simp [Mesh.highlight_connection_to_resource, hl]
  · intro n n' c1 p1 rr a1 hc1 ha1 hs
    subst ha1
    have hchar := add_connection_to_resource_success n n' a1.name p1 rr _ hc1 hs
    subst hchar
    have hkey : odLookup
        (odSet n.connections ((Node.label_for_needs (.comp a1), p1), .res rr)
          (.resourceConn (Node.label_for_needs (.comp a1), p1) rr false))
        ((a1.name, p1), .res rr)
        = some (.resourceConn (a1.name, p1) rr false) := odLookup_odSet_self _ _ _
    constructor
    · simp [Mesh.highlight_connection_to_resource, hkey]
    · simp only [Mesh.highlight_connection_to_resource, hkey]
      refine connDict_mem_of_odLookup _ ((a1.name, p1), .res rr)
        (ConnectionNode.resourceConn (a1.name, p1) rr true) ?_
      exact odLookup_odSet_self _ _ _

theorem highlight_connection_after_add_witness :
    (((Mesh.empty.run [.addComponent "A" ["n"] [], .addComponent "B" [] ["p"]]).add_connection
        "A" "n" "B" "p").2.highlight_connection "A" "n" "B" "p").1 = none ∧
    ConnDict.edge "A" "n" "B" "p" true none
      ∈ (((Mesh.empty.run [.addComponent "A" ["n"] [],
          .addComponent "B" [] ["p"]]).add_connection
          "A" "n" "B" "p").2.highlight_connection "A" "n" "B" "p").2.as_dict.connections :=
  (highlight_connection_after_add
    (Mesh.empty.run [.addComponent "A" ["n"] [], .addComponent "B" [] ["p"]])
    ((Mesh.empty.run [.addComponent "A" ["n"] [], .addComponent "B" [] ["p"]]).add_connection
      "A" "n" "B" "p").2
    "A" "n" "B" "p" ⟨"A", ["n"], [], false, none⟩ ⟨"B", [], ["p"], false, none⟩
    (by decide) (by decide) (by decide) (by decide)
    (Prod.ext_iff.mpr ⟨by decide, rfl⟩)).1

/-! ### C4 — single producer per needs port -/

/-- C4 counterexample: with `(A, n1)` already connected to `B.p1`,
`expose_component_needs_port('A','n1')` does signal `InvalidConnection`
but does not "store nothing": the port `n1` has been appended to the
parent domain's needs-port list before the consumer check fires. -/
theorem second_consumer_attempt_counterexample :
    ((Mesh.empty.run [.addComponent "A" ["n1"] [], .addComponent "B" [] ["p1"],
        .addDomain "D", .addComponentToDomain "A" "D",
        .addConnection "A" "n1" "B" "p1"]).expose_component_needs_port "A" "n1").1
      = some Err.invalidConnection ∧
    ((Mesh.empty.run [.addComponent "A" ["n1"] [], .addComponent "B" [] ["p1"],
        .addDomain "D", .addComponentToDomain "A" "D",
        .addConnection "A" "n1" "B" "p1"]).expose_component_needs_port "A" "n1").2
      ≠ Mesh.empty.run [.addComponent "A" ["n1"] [], .addComponent "B" [] ["p1"],
        .addDomain "D", .addComponentToDomain "A" "D",
        .addConnection "A" "n1" "B" "p1"] := by decide

/-- C4 (amended): if the consumer anchor is already marked as connected
— whatever created the first edge and whatever its target — then a
second `add_connection` / `add_connection_to_resource` /
`expose_component_needs_port` whose other validations pass signals
`InvalidConnection`, stores no connection, and marks no consumer; the
first two leave the mesh entirely unchanged, while the expose operation
may have already appended the port to the parent domain's needs-port
list before failing. -/
theorem second_consumer_attempt_invalidConnection (m : Mesh) (cc cp : String) :
    (∀ (pc pp : String) (ncc npc : Node),
      odLookup m.components cc = some ncc → cp ∈ ncc.needs_ports →
      odLookup m.components pc = some npc → pp ∈ npc.provides_ports →
      (ncc.label_for_needs, cp) ∈ m.connected_consumers →
      m.add_connection cc cp pc pp = (some Err.invalidConnection, m)) ∧
    (∀ (r : String) (ncc : Node),
      odLookup m.components cc = some ncc → cp ∈ ncc.needs_ports →
      r ∈ m.resources →
      (ncc.label_for_needs, cp) ∈ m.connected_consumers →
      m.add_connection_to_resource cc cp r = (some Err.invalidConnection, m)) ∧
    (∀ (comp : ComponentNode) (pname : String) (dnode : Node),
      odLookup m.components cc = some (.comp comp) → cp ∈ comp.needs_ports →
      comp.parent = some pname → odLookup m.components pname = some dnode →
      (cc, cp) ∈ m.connected_consumers →
      (m.expose_component_needs_port cc cp).1 = some Err.invalidConnection ∧
      (m.expose_component_needs_port cc cp).2.connections = m.connections ∧
      (m.expose_component_needs_port cc cp).2.connected_consumers = m.connected_consumers) := by
  refine ⟨?_, ?_, ?_⟩
  · intro pc pp ncc npc hcc hcp hpc hpp hcon
    simp [Mesh.add_connection, Mesh.addBetween, hcc, hpc, hcp, hpp, hcon]
  · intro r ncc hcc hcp hr hcon
    simp [Mesh.add_connection_to_resource, Mesh.addBetween, hcc, hcp, hr, hcon]
  · intro comp pname dnode hcc hcp hpar hd hcon
    cases dnode with
    | comp c0 =>
      by_cases hmem : cp ∈ c0.needs_ports <;>
        simp [Mesh.expose_component_needs_port, Mesh.addBetween, Node.needs_ports,
          Node.appendNeeds, hcc, hcp, hpar, hd, hmem, hcon]
    | dom d0 =>
      by_cases hmem : cp ∈ d0.needs_ports <;>
        simp [Mesh.expose_component_needs_port, Mesh.addBetween, Node.needs_ports,
          Node.appendNeeds, hcc, hcp, hpar, hd, hmem, hcon]

theorem second_consumer_attempt_invalidConnection_witness :
    (Mesh.empty.run [.addComponent "A" ["n1"] [], .addComponent "B" [] ["p1"],
        .addDomain "D", .addComponentToDomain "A" "D",
        .addConnection "A" "n1" "B" "p1"]).add_connection "A" "n1" "B" "p1"
      = (some Err.invalidConnection,
        Mesh.empty.run [.addComponent "A" ["n1"] [], .addComponent "B" [] ["p1"],
          .addDomain "D", .addComponentToDomain "A" "D",
          .addConnection "A" "n1" "B" "p1"]) ∧
    ((Mesh.empty.run [.addComponent "A" ["n1"] [], .addComponent "B" [] ["p1"],
        .addDomain "D", .addComponentToDomain "A" "D",
        .addConnection "A" "n1" "B" "p1"]).expose_component_needs_port "A" "n1").1
      = some Err.invalidConnection :=
  ⟨(second_consumer_attempt_invalidConnection
      (Mesh.empty.run [.addComponent "A" ["n1"] [], .addComponent "B" [] ["p1"],
        .addDomain "D", .addComponentToDomain "A" "D",
        .addConnection "A" "n1" "B" "p1"]) "A" "n1").1 "B" "p1"
      (.comp ⟨"A", ["n1"], [], false, some "D"⟩) (.comp ⟨"B", [], ["p1"], false, none⟩)
      (by decide) (by decide) (by decide) (by decide) (by decide),
    ((second_consumer_attempt_invalidConnection
      (Mesh.empty.run [.addComponent "A" ["n1"] [], .addComponent "B" [] ["p1"],
        .addDomain "D", .addComponentToDomain "A" "D",
        .addConnection "A" "n1" "B" "p1"]) "A" "n1").2.2
      ⟨"A", ["n1"], [], false, some "D"⟩ "D" (.dom ⟨"D", [], [], ["A"], false⟩)
      (by decide) (by decide) (by decide) (by decide) (by decide)).1⟩

/-! ### C5 — domain port exposure asymmetry -/

/-- C5: through a domain `D` with child components `A` and `B`,
exposing the same provides-port a second time (same or different child)
signals `DuplicateEntry`, while exposing the same needs-port from the
two different children succeeds both times, adds the port to `D`'s
needs-port list only once, and both domain-needs-export connections
appear in the snapshot. -/
theorem domain_expose_asymmetry (m : Mesh) (A B D n p : String)
    (a b : ComponentNode) (dn : DomainNode)
    (hA : odLookup m.components A = some (.comp a)) (haP : a.parent = some D)
    (hB : odLookup m.components B = some (.comp b)) (hbP : b.parent = some D)
    (hD : odLookup m.components D = some (.dom dn))
    (hAB : A ≠ B) :
    (n ∈ a.needs_ports → n ∈ b.needs_ports → n ∉ dn.needs_ports →
      (A, n) ∉ m.connected_consumers → (B, n) ∉ m.connected_consumers →
      ∃ m2 : Mesh,
        (m.expose_component_needs_port A n).1 = none ∧
        (m.expose_component_needs_port A n).2.expose_component_needs_port B n = (none, m2) ∧
        (∃ dn2 : DomainNode, odLookup m2.components D = some (.dom dn2) ∧
          dn2.needs_ports = dn.needs_ports ++ [n]) ∧
        ConnDict.edge A n (dn.name ++ "__needs") n false (some "needs")
          ∈ m2.as_dict.connections ∧
        ConnDict.edge B n (dn.name ++ "__needs") n false (some "needs")
          ∈ m2.as_dict.connections) ∧
    (p ∈ a.provides_ports → p ∈ b.provides_ports → p ∉ dn.provides_ports →
      (dn.name ++ "__provides", p) ∉ m.connected_consumers →
      (m.expose_component_provides_port A p).1 = none ∧
      ((m.expose_component_provides_port A p).2.expose_component_provides_port B p).1
        = some Err.duplicateEntry ∧
      ((m.expose_component_provides_port A p).2.expose_component_provides_port A p).1
        = some Err.duplicateEntry) := by
  have hAD : A ≠ D := by
    intro h
    rw [h, hD] at hA
    simp at hA
  have hBD : B ≠ D := by
    intro h
    rw [h, hD] at hB
    simp at hB
  constructor
  · intro hna hnb hmemD hconA hconB
    have e1 : m.expose_component_needs_port A n
        = (none, { m with
            components := odSet m.components D
              (.dom { dn with needs_ports := dn.needs_ports ++ [n] }),
            connections := odSet m.connections ((A, n), .anchor (dn.name ++ "__needs") n)
              (.domainNeeds (A, n) (dn.name ++ "__needs", n) false),
            connected_consumers := setInsert m.connected_consumers (A, n) }) := by
      simp [Mesh.expose_component_needs_port, Mesh.addBetween, Node.needs_ports,
        Node.appendNeeds, Node.label_for_needs, hA, hna, haP, hD, hmemD, hconA]
    have hlookB : odLookup
        (odSet m.components D (Node.dom { dn with needs_ports := dn.needs_ports ++ [n] })) B
        = some (.comp b) := by
      rw [odLookup_odSet_ne _ _ _ _ (Ne.symm hBD)]
      exact hB
    have hconB1 : (B, n) ∉ setInsert m.connected_consumers (A, n) := by
      simp only [setInsert, if_neg hconA, List.mem_append, List.mem_singleton]
      rintro (h | h)
      · exact hconB h
      · exact hAB (congrArg Prod.fst h).symm
    have e2 : (({ m with
            components := odSet m.components D
              (.dom { dn with needs_ports := dn.needs_ports ++ [n] }),
            connections := odSet m.connections ((A, n), .anchor (dn.name ++ "__needs") n)
              (.domainNeeds (A, n) (dn.name ++ "__needs", n) false),
            connected_consumers := setInsert m.connected_consumers (A, n) } : Mesh)).expose_component_needs_port B n
        = (none, { m with
            components := odSet m.components D
              (.dom { dn with needs_ports := dn.needs_ports ++ [n] }),
            connections := odSet
              (odSet m.connections ((A, n), .anchor (dn.name ++ "__needs") n)
                (.domainNeeds (A, n) (dn.name ++ "__needs", n) false))
              ((B, n), .anchor (dn.name ++ "__needs") n)
              (.domainNeeds (B, n) (dn.name ++ "__needs", n) false),
            connected_consumers := setInsert (setInsert m.connected_consumers (A, n)) (B, n) }) := by
      simp [Mesh.expose_component_needs_port, Mesh.addBetween, Node.needs_ports,
        Node.label_for_needs, hlookB, hnb, hbP, odLookup_odSet_self, hconB1]
    refine ⟨_, by rw [e1], by rw [e1]; exact e2, ?_, ?_, ?_⟩
    · exact ⟨{ dn with needs_ports := dn.needs_ports ++ [n] }, odLookup_odSet_self _ _ _, rfl⟩
    · have hk : (((B, n), ProdKey.anchor (dn.name ++ "__needs") n) : ConnKey)
          ≠ ((A, n), ProdKey.anchor (dn.name ++ "__needs") n) := by
        simp [Ne.symm hAB]
      refine connDict_mem_of_odLookup _ ((A, n), .anchor (dn.name ++ "__needs") n)
        (.domainNeeds (A, n) (dn.name ++ "__needs", n) false) ?_
      rw [odLookup_odSet_ne _ _ _ _ hk]
      exact odLookup_odSet_self _ _ _
    · refine connDict_mem_of_odLookup _ ((B, n), .anchor (dn.name ++ "__needs") n)
        (.domainNeeds (B, n) (dn.name ++ "__needs", n) false) ?_
      exact odLookup_odSet_self _ _ _
  · intro hpa hpb hmemD hconD
    have e3 : m.expose_component_provides_port A p
        = (none, { m with
            components := odSet m.components D
              (.dom { dn with provides_ports := dn.provides_ports ++ [p] }),
            connections := odSet m.connections ((dn.name ++ "__provides", p), .anchor A p)
              (.domainProvides (dn.name ++ "__provides", p) (A, p) false),
            connected_consumers := setInsert m.connected_consumers (dn.name ++ "__provides", p) }) := by
      simp [Mesh.expose_component_provides_port, Mesh.addBetween, Node.provides_ports,
        Node.appendProvides, Node.label_for_provides, hA, hpa, haP, hD, hmemD, hconD]
    have hlookB2 : odLookup
        (odSet m.components D (Node.dom { dn with provides_ports := dn.provides_ports ++ [p] })) B
        = some (.comp b) := by
      rw [odLookup_odSet_ne _ _ _ _ (Ne.symm hBD)]
      exact hB
    have hlookA2 : odLookup
        (odSet m.components D (Node.dom { dn with provides_ports := dn.provides_ports ++ [p] })) A
        = some (.comp a) := by
      rw [odLookup_odSet_ne _ _ _ _ (Ne.symm hAD)]
      exact hA
    refine ⟨by rw [e3], ?_, ?_⟩
    · rw [e3]
      simp [Mesh.expose_component_provides_port, Node.provides_ports, hlookB2, hpb, hbP,
        odLookup_odSet_self]
    · rw [e3]
      simp [Mesh.expose_component_provides_port, Node.provides_ports, hlookA2, hpa, haP,
        odLookup_odSet_self]

theorem domain_expose_asymmetry_witness :
    (∃ m2 : Mesh,
      (exposeWitnessMesh.expose_component_needs_port "A" "n").1 = none ∧
      (exposeWitnessMesh.expose_component_needs_port
        "A" "n").2.expose_component_needs_port "B" "n" = (none, m2) ∧
      (∃ dn2 : DomainNode, odLookup m2.components "D" = some (.dom dn2) ∧
        dn2.needs_ports = [] ++ ["n"]) ∧
      ConnDict.edge "A" "n" ("D" ++ "__needs") "n" false (some "needs")
        ∈ m2.as_dict.connections ∧
      ConnDict.edge "B" "n" ("D" ++ "__needs") "n" false (some "needs")
        ∈ m2.as_dict.connections) ∧
    ((exposeWitnessMesh.expose_component_provides_port
        "A" "q").2.expose_component_provides_port "B" "q").1 = some Err.duplicateEntry :=
  ⟨(domain_expose_asymmetry exposeWitnessMesh "A" "B" "D" "n" "q"
      ⟨"A", ["n"], ["q"], false, some "D"⟩ ⟨"B", ["n"], ["q"], false, some "D"⟩
      ⟨"D", [], [], ["A", "B"], false⟩
      (by decide) (by decide) (by decide) (by decide) (by decide) (by decide)).1
      (by decide) (by decide) (by decide) (by decide) (by decide),
    ((domain_expose_asymmetry exposeWitnessMesh "A" "B" "D" "n" "q"
      ⟨"A", ["n"], ["q"], false, some "D"⟩ ⟨"B", ["n"], ["q"], false, some "D"⟩
      ⟨"D", [], [], ["A", "B"], false⟩
      (by decide) (by decide) (by decide) (by decide) (by decide) (by decide)).2
      (by decide) (by decide) (by decide) (by decide)).2.1⟩

/-! ### C7 — snapshot port order = insertion order -/

theorem add_needs_port_ok (node node' : Node) (p : String)
    (h : node.add_needs_port p = .ok node') :
    node'.needs_ports = node.needs_ports ++ [p] ∧
    node'.provides_ports = node.provides_ports := by
  cases node with
  | comp cn =>
    by_cases hp : p ∈ cn.needs_ports
    · simp [Node.add_needs_port, hp] at h
    · simp [Node.add_needs_port, hp] at h
      simp [← h, Node.needs_ports, Node.provides_ports]
  | dom dnn =>
    by_cases hp : p ∈ dnn.needs_ports
    · simp [Node.add_needs_port, hp] at h
    · simp [Node.add_needs_port, hp] at h
      simp [← h, Node.needs_ports, Node.provides_ports]

theorem add_provides_port_ok (node node' : Node) (p : String)
    (h : node.add_provides_port p = .ok node') :
    node'.provides_ports = node.provides_ports ++ [p] ∧
    node'.needs_ports = node.needs_ports := by
  cases node with
  | comp cn =>
    by_cases hp : p ∈ cn.provides_ports
    · simp [Node.add_provides_port, hp] at h
    · simp [Node.add_provides_port, hp] at h
      simp [← h, Node.needs_ports, Node.provides_ports]
  | dom dnn =>
    by_cases hp : p ∈ dnn.provides_ports
    · simp [Node.add_provides_port, hp] at h
    · simp [Node.add_provides_port, hp] at h
      simp [← h, Node.needs_ports, Node.provides_ports]

/-- Both port lists of a node are untouched by ops that keep the
components map (or replace a value with one carrying the same lists). -/
theorem portsExtend_same (m X : Mesh) (h : X.components = m.components) (c : String) :
    X.needsOf c = m.needsOf c ∧ X.providesOf c = m.providesOf c := by
  constructor <;> simp [Mesh.needsOf, Mesh.providesOf, h]

theorem portsExtend_odSet (m X : Mesh) (k : String) (v w : Node)
    (hX : X.components = odSet m.components k v)
    (hk : odLookup m.components k = some w)
    (hn : ∃ t, v.needs_ports = w.needs_ports ++ t)
    (hp : ∃ t, v.provides_ports = w.provides_ports ++ t) (c : String) :
    (∃ t, X.needsOf c = m.needsOf c ++ t) ∧
    (∃ t, X.providesOf c = m.providesOf c ++ t) := by
  by_cases hkc : k = c
  · subst hkc
    obtain ⟨t1, ht1⟩ := hn
    obtain ⟨t2, ht2⟩ := hp
    constructor
    · exact ⟨t1, by simp [Mesh.needsOf, hX, odLookup_odSet_self, hk, ht1]⟩
    · exact ⟨t2, by simp [Mesh.providesOf, hX, odLookup_odSet_self, hk, ht2]⟩
  · constructor <;>
      exact ⟨[], by simp [Mesh.needsOf, Mesh.providesOf, hX, odLookup_odSet_ne _ _ _ _ hkc]⟩

theorem portsExtend_odSet_fresh (m X : Mesh) (k : String) (v : Node)
    (hX : X.components = odSet m.components k v)
    (hk : odLookup m.components k = none) (c : String) :
    (∃ t, X.needsOf c = m.needsOf c ++ t) ∧
    (∃ t, X.providesOf c = m.providesOf c ++ t) := by
  by_cases hkc : k = c
  · subst hkc
    constructor
    · exact ⟨v.needs_ports, by simp [Mesh.needsOf, hX, odLookup_odSet_self, hk]⟩
    · exact ⟨v.provides_ports, by simp [Mesh.providesOf, hX, odLookup_odSet_self, hk]⟩
  · constructor <;>
      exact ⟨[], by simp [Mesh.needsOf, Mesh.providesOf, hX, odLookup_odSet_ne _ _ _ _ hkc]⟩

theorem appendNeeds_ports (n : Node) (p : String) :
    (n.appendNeeds p).needs_ports = n.needs_ports ++ [p] ∧
    (n.appendNeeds p).provides_ports = n.provides_ports := by
  cases n <;> simp [Node.appendNeeds, Node.needs_ports, Node.provides_ports]

theorem appendProvides_ports (n : Node) (p : String) :
    (n.appendProvides p).provides_ports = n.provides_ports ++ [p] ∧
    (n.appendProvides p).needs_ports = n.needs_ports := by
  cases n <;> simp [Node.appendProvides, Node.needs_ports, Node.provides_ports]

theorem setHighlighted_ports (n : Node) :
    (Node.setHighlighted n).needs_ports = n.needs_ports ∧
    (Node.setHighlighted n).provides_ports = n.provides_ports := by
  cases n <;> simp [Node.setHighlighted, Node.needs_ports, Node.provides_ports]

theorem portsExtend_trans {m1 m2 m3 : Mesh} (c : String)
    (h12 : (∃ t, m2.needsOf c = m1.needsOf c ++ t) ∧
      (∃ t, m2.providesOf c = m1.providesOf c ++ t))
    (h23 : (∃ t, m3.needsOf c = m2.needsOf c ++ t) ∧
      (∃ t, m3.providesOf c = m2.providesOf c ++ t)) :
    (∃ t, m3.needsOf c = m1.needsOf c ++ t) ∧
    (∃ t, m3.providesOf c = m1.providesOf c ++ t) := by
  obtain ⟨⟨t1, h1⟩, ⟨t2, h2⟩⟩ := h12
  obtain ⟨⟨t3, h3⟩, ⟨t4, h4⟩⟩ := h23
  exact ⟨⟨t1 ++ t3, by rw [h3, h1, List.append_assoc]⟩,
    ⟨t2 ++ t4, by rw [h4, h2, List.append_assoc]⟩⟩

theorem addPortsLoop_needs_extend (ports : List String) (m : Mesh) (c0 c : String) :
    (∃ t, ((Mesh.addPortsLoop Mesh.add_needs_port m c0 ports).2).needsOf c
      = m.needsOf c ++ t) ∧
    ((Mesh.addPortsLoop Mesh.add_needs_port m c0 ports).2).providesOf c = m.providesOf c := by
  induction ports generalizing m with
  | nil => simp [Mesh.addPortsLoop]
  | cons p ps ih =>
    cases hl : odLookup m.components c0 with
    | none => simp [Mesh.addPortsLoop, Mesh.add_needs_port, hl]
    | some node =>
      cases ha : node.add_needs_port p with
      | error e => simp [Mesh.addPortsLoop, Mesh.add_needs_port, hl, ha]
      | ok node' =>
        have hports := add_needs_port_ok node node' p ha
        have hloop : Mesh.addPortsLoop Mesh.add_needs_port m c0 (p :: ps)
            = Mesh.addPortsLoop Mesh.add_needs_port
              { m with components := odSet m.components c0 node' } c0 ps := by
          simp [Mesh.addPortsLoop, Mesh.add_needs_port, hl, ha]
        have hneed : ∃ t, Mesh.needsOf { m with components := odSet m.components c0 node' } c
            = m.needsOf c ++ t :=
          (portsExtend_odSet m { m with components := odSet m.components c0 node' }
            c0 node' node rfl hl ⟨[p], hports.1⟩ ⟨[], by simp [hports.2]⟩ c).1
        have hprov : Mesh.providesOf { m with components := odSet m.components c0 node' } c
            = m.providesOf c := by
          by_cases hkc : c0 = c
          · subst hkc
            simp [Mesh.providesOf, odLookup_odSet_self, hl, hports.2]
          · simp [Mesh.providesOf, odLookup_odSet_ne _ _ _ _ hkc]
        rw [hloop]
        constructor
        · obtain ⟨t2, h2⟩ := (ih _).1
          obtain ⟨t1, h1⟩ := hneed
          exact ⟨t1 ++ t2, by rw [h2, h1, List.append_assoc]⟩
        · rw [(ih _).2, hprov]

theorem addPortsLoop_provides_extend (ports : List String) (m : Mesh) (c0 c : String) :
    (∃ t, ((Mesh.addPortsLoop Mesh.add_provides_port m c0 ports).2).providesOf c
      = m.providesOf c ++ t) ∧
    ((Mesh.addPortsLoop Mesh.add_provides_port m c0 ports).2).needsOf c = m.needsOf c := by
  induction ports generalizing m with
  | nil => simp [Mesh.addPortsLoop]
  | cons p ps ih =>
    cases hl : odLookup m.components c0 with
    | none => simp [Mesh.addPortsLoop, Mesh.add_provides_port, hl]
    | some node =>
      cases ha : node.add_provides_port p with
      | error e => simp [Mesh.addPortsLoop, Mesh.add_provides_port, hl, ha]
      | ok node' =>
        have hports := add_provides_port_ok node node' p ha
        have hloop : Mesh.addPortsLoop Mesh.add_provides_port m c0 (p :: ps)
            = Mesh.addPortsLoop Mesh.add_provides_port
              { m with components := odSet m.components c0 node' } c0 ps := by
          simp [Mesh.addPortsLoop, Mesh.add_provides_port, hl, ha]
        have hprov : ∃ t, Mesh.providesOf { m with components := odSet m.components c0 node' } c
            = m.providesOf c ++ t :=
          (portsExtend_odSet m { m with components := odSet m.components c0 node' }
            c0 node' node rfl hl ⟨[], by simp [hports.2]⟩ ⟨[p], hports.1⟩ c).2
        have hneed : Mesh.needsOf { m with components := odSet m.components c0 node' } c
            = m.needsOf c := by
          by_cases hkc : c0 = c
          · subst hkc
            simp [Mesh.needsOf, odLookup_odSet_self, hl, hports.2]
          · simp [Mesh.needsOf, odLookup_odSet_ne _ _ _ _ hkc]
        rw [hloop]
        constructor
        · obtain ⟨t2, h2⟩ := (ih _).1
          obtain ⟨t1, h1⟩ := hprov
          exact ⟨t1 ++ t2, by rw [h2, h1, List.append_assoc]⟩
        · rw [(ih _).2, hneed]

/-- No operation ever removes or reorders a stored port list: the list
after a step is always the list before with zero or more ports
appended. -/
theorem step_portsExtend (m : Mesh) (o : Op) (c : String) :
    (∃ t, (m.step o).needsOf c = m.needsOf c ++ t) ∧
    (∃ t, (m.step o).providesOf c = m.providesOf c ++ t) := by
  have same : ∀ X : Mesh, X.components = m.components →
      (∃ t, X.needsOf c = m.needsOf c ++ t) ∧ (∃ t, X.providesOf c = m.providesOf c ++ t) := by
    intro X h
    obtain ⟨h1, h2⟩ := portsExtend_same m X h c
    exact ⟨⟨[], by simp [h1]⟩, ⟨[], by simp [h2]⟩⟩
  cases o with
  | addComponent name ns ps =>
    by_cases hdup : (odLookup m.components name).isSome
    · exact same _ (by simp [Mesh.step, Mesh.apply, Mesh.add_component, hdup])
    · have hnone : odLookup m.components name = none := by
        cases h : odLookup m.components name
        · rfl
        · simp [h] at hdup
      have h01 := portsExtend_odSet_fresh m
        { m with components := odSet m.components name (.comp ⟨name, [], [], false, none⟩) }
        name _ rfl hnone c
      cases hres : Mesh.addPortsLoop Mesh.add_needs_port
          { m with components := odSet m.components name (.comp ⟨name, [], [], false, none⟩) }
          name ns with
      | mk e m2 =>
        have hL1 := addPortsLoop_needs_extend ns
          { m with components := odSet m.components name (.comp ⟨name, [], [], false, none⟩) }
          name c
        rw [hres] at hL1
        have h02 := portsExtend_trans c h01 ⟨hL1.1, ⟨[], by simp [hL1.2]⟩⟩
        cases e with
        | some e0 =>
          have hstep : m.step (.addComponent name ns ps) = m2 := by
            simp [Mesh.step, Mesh.apply, Mesh.add_component, hdup, hres]
          rw [hstep]
          exact h02
        | none =>
          have hL2 := addPortsLoop_provides_extend ps m2 name c
          have hstep : m.step (.addComponent name ns ps)
              = (Mesh.addPortsLoop Mesh.add_provides_port m2 name ps).2 := by
            simp [Mesh.step, Mesh.apply, Mesh.add_component, hdup, hres]
          rw [hstep]
          exact portsExtend_trans c h02 ⟨⟨[], by simp [hL2.2]⟩, hL2.1⟩
  | addDomain name =>
    by_cases hdup : (odLookup m.components name).isSome
    · exact same _ (by simp [Mesh.step, Mesh.apply, Mesh.add_domain, hdup])
    · have hnone : odLookup m.components name = none := by
        cases h : odLookup m.components name
        · rfl
        · simp [h] at hdup
      have hstep : m.step (.addDomain name)
          = { m with components := odSet m.components name (.dom ⟨name, [], [], [], false⟩) } := by
        simp [Mesh.step, Mesh.apply, Mesh.add_domain, hdup]
      rw [hstep]
      exact portsExtend_odSet_fresh m _ name _ rfl hnone c
  | addResource r =>
    refine same _ ?_
    by_cases h : r ∈ m.resources <;> simp [Mesh.step, Mesh.apply, Mesh.add_resource, h]
  | addNeedsPort c0 p =>
    cases hl : odLookup m.components c0 with
    | none => exact same _ (by simp [Mesh.step, Mesh.apply, Mesh.add_needs_port, hl])
    | some node =>
      cases ha : node.add_needs_port p with
      | error e => exact same _ (by simp [Mesh.step, Mesh.apply, Mesh.add_needs_port, hl, ha])
      | ok node' =>
        have hports := add_needs_port_ok node node' p ha
        have hstep : m.step (.addNeedsPort c0 p)
            = { m with components := odSet m.components c0 node' } := by
          simp [Mesh.step, Mesh.apply, Mesh.add_needs_port, hl, ha]
        rw [hstep]
        exact portsExtend_odSet m _ c0 node' node rfl hl
          ⟨[p], hports.1⟩ ⟨[], by simp [hports.2]⟩ c
  | addProvidesPort c0 p =>
    cases hl : odLookup m.components c0 with
    | none => exact same _ (by simp [Mesh.step, Mesh.apply, Mesh.add_provides_port, hl])
    | some node =>
      cases ha : node.add_provides_port p with
      | error e => exact same _ (by simp [Mesh.step, Mesh.apply, Mesh.add_provides_port, hl, ha])
      | ok node' =>
        have hports := add_provides_port_ok node node' p ha
        have hstep : m.step (.addProvidesPort c0 p)
            = { m with components := odSet m.components c0 node' } := by
          simp [Mesh.step, Mesh.apply, Mesh.add_provides_port, hl, ha]
        rw [hstep]
        exact portsExtend_odSet m _ c0 node' node rfl hl
          ⟨[], by simp [hports.2]⟩ ⟨[p], hports.1⟩ c
  | addConnection cc cp pc pp =>
    refine same _ ?_
    simp only [Mesh.step, Mesh.apply, Mesh.add_connection, Mesh.addBetween]
    repeat' split
    all_goals rfl
  | addConnectionToResource cc cp r =>
    refine same _ ?_
    simp only [Mesh.step, Mesh.apply, Mesh.add_connection_to_resource, Mesh.addBetween]
    repeat' split
    all_goals rfl
  | addComponentToDomain c0 d =>
    cases hl : odLookup m.components c0 with
    | none => exact same _ (by simp [Mesh.step, Mesh.apply, Mesh.add_component_to_domain, hl])
    | some node =>
      cases node with
      | dom dn =>
        exact same _ (by simp [Mesh.step, Mesh.apply, Mesh.add_component_to_domain, hl])
      | comp comp =>
        by_cases hpar : pyTruthy comp.parent
        · exact same _ (by simp [Mesh.step, Mesh.apply, Mesh.add_component_to_domain, hl, hpar])
        · cases hd : odLookup m.components d with
          | none =>
            exact same _
              (by simp [Mesh.step, Mesh.apply, Mesh.add_component_to_domain, hl, hpar, hd])
          | some dnode =>
            have h1 := portsExtend_odSet m
              { m with components := odSet m.components c0 (.comp { comp with parent := some d }) }
              c0 (.comp { comp with parent := some d }) (.comp comp) rfl hl
              ⟨[], by simp [Node.needs_ports]⟩ ⟨[], by simp [Node.provides_ports]⟩ c
            cases dnode with
            | comp dc =>
              have hstep : m.step (.addComponentToDomain c0 d)
                  = { m with components := odSet m.components c0 (.comp { comp with parent := some d }) } := by
                simp [Mesh.step, Mesh.apply, Mesh.add_component_to_domain, hl, hpar, hd]
              rw [hstep]
              exact h1
            | dom dn =>
              have hcd : c0 ≠ d := by
                intro h
                rw [h] at hl
                rw [hl] at hd
                simp at hd
              by_cases hch : c0 ∈ dn.children
              · have hstep : m.step (.addComponentToDomain c0 d)
                    = { m with components := odSet m.components c0 (.comp { comp with parent := some d }) } := by
                  simp [Mesh.step, Mesh.apply, Mesh.add_component_to_domain, hl, hpar, hd, hch]
                rw [hstep]
                exact h1
              · have hcomp : (m.step (.addComponentToDomain c0 d)).components
                    = odSet (odSet m.components c0 (.comp { comp with parent := some d })) d
                      (.dom { dn with children := setInsert dn.children c0 }) := by
                  simp [Mesh.step, Mesh.apply, Mesh.add_component_to_domain, hl, hpar, hd, hch]
                refine portsExtend_trans c h1 ?_
                refine portsExtend_odSet
                  { m with components := odSet m.components c0 (.comp { comp with parent := some d }) }
                  (m.step (.addComponentToDomain c0 d)) d
                  (.dom { dn with children := setInsert dn.children c0 }) (.dom dn) hcomp ?_
                  ⟨[], by simp [Node.needs_ports]⟩ ⟨[], by simp [Node.provides_ports]⟩ c
                show odLookup (odSet m.components c0 (Node.comp { comp with parent := some d })) d
                  = some (Node.dom dn)
                rw [odLookup_odSet_ne _ _ _ _ hcd]
                exact hd
  | exposeNeeds c0 p =>
    cases hl : odLookup m.components c0 with
    | none => exact same _ (by simp [Mesh.step, Mesh.apply, Mesh.expose_component_needs_port, hl])
    | some node =>
      cases node with
      | dom dn =>
        refine same _ ?_
        by_cases hnp : p ∈ dn.needs_ports <;>
          simp [Mesh.step, Mesh.apply, Mesh.expose_component_needs_port,
            Node.needs_ports, hl, hnp]
      | comp comp =>
        by_cases hnp : p ∈ comp.needs_ports
        · cases hpar : comp.parent with
          | none =>
            exact same _ (by simp [Mesh.step, Mesh.apply, Mesh.expose_component_needs_port,
              Node.needs_ports, hl, hnp, hpar])
          | some pname =>
            cases hd : odLookup m.components pname with
            | none =>
              exact same _ (by simp [Mesh.step, Mesh.apply, Mesh.expose_component_needs_port,
                Node.needs_ports, hl, hnp, hpar, hd])
            | some dnode =>
              by_cases hmem : p ∈ Node.needs_ports dnode
              · have hmem2 : p ∈ (match dnode with
                    | Node.comp cx => cx.needs_ports
                    | Node.dom dx => dx.needs_ports) := hmem
                refine same _ ?_
                by_cases hcon : (c0, p) ∈ m.connected_consumers <;>
                  simp [Mesh.step, Mesh.apply, Mesh.expose_component_needs_port, Mesh.addBetween,
                    Node.needs_ports, hl, hnp, hpar, hd, hmem, hmem2, hcon]
              · have hmem2 : p ∉ (match dnode with
                    | Node.comp cx => cx.needs_ports
                    | Node.dom dx => dx.needs_ports) := hmem
                have h1 := portsExtend_odSet m
                  { m with components := odSet m.components pname (dnode.appendNeeds p) }
                  pname (dnode.appendNeeds p) dnode rfl hd
                  ⟨[p], (appendNeeds_ports dnode p).1⟩
                  ⟨[], by simp [(appendNeeds_ports dnode p).2]⟩ c
                have hcomp : (m.step (.exposeNeeds c0 p)).components
                    = odSet m.components pname (dnode.appendNeeds p) := by
                  by_cases hcon : (c0, p) ∈ m.connected_consumers <;>
                    simp [Mesh.step, Mesh.apply, Mesh.expose_component_needs_port, Mesh.addBetween,
                      Node.needs_ports, hl, hnp, hpar, hd, hmem, hmem2, hcon]
                refine portsExtend_trans c h1 ?_
                have hsame := portsExtend_same
                  { m with components := odSet m.components pname (dnode.appendNeeds p) }
                  (m.step (.exposeNeeds c0 p)) hcomp c
                exact ⟨⟨[], by simp [hsame.1]⟩, ⟨[], by simp [hsame.2]⟩⟩
        · exact same _ (by simp [Mesh.step, Mesh.apply, Mesh.expose_component_needs_port,
            Node.needs_ports, hl, hnp])
  | exposeProvides c0 p =>
    cases hl : odLookup m.components c0 with
    | none =>
      exact same _ (by simp [Mesh.step, Mesh.apply, Mesh.expose_component_provides_port, hl])
    | some node =>
      cases node with
      | dom dn =>
        refine same _ ?_
        by_cases hnp : p ∈ dn.provides_ports <;>
          simp [Mesh.step, Mesh.apply, Mesh.expose_component_provides_port,
            Node.provides_ports, hl, hnp]
      | comp comp =>
        by_cases hnp : p ∈ comp.provides_ports
        · cases hpar : comp.parent with
          | none =>
            exact same _ (by simp [Mesh.step, Mesh.apply, Mesh.expose_component_provides_port,
              Node.provides_ports, hl, hnp, hpar])
          | some pname =>
            cases hd : odLookup m.components pname with
            | none =>
              exact same _ (by simp [Mesh.step, Mesh.apply, Mesh.expose_component_provides_port,
                Node.provides_ports, hl, hnp, hpar, hd])
            | some dnode =>
              by_cases hmem : p ∈ Node.provides_ports dnode
              · have hmem2 : p ∈ (match dnode with
                    | Node.comp cx => cx.provides_ports
                    | Node.dom dx => dx.provides_ports) := hmem
                exact same _ (by simp [Mesh.step, Mesh.apply, Mesh.expose_component_provides_port,
                  Node.provides_ports, hl, hnp, hpar, hd, hmem, hmem2])
              · have hmem2 : p ∉ (match dnode with
                    | Node.comp cx => cx.provides_ports
                    | Node.dom dx => dx.provides_ports) := hmem
                have h1 := portsExtend_odSet m
                  { m with components := odSet m.components pname (dnode.appendProvides p) }
                  pname (dnode.appendProvides p) dnode rfl hd
                  ⟨[], by simp [(appendProvides_ports dnode p).2]⟩
                  ⟨[p], (appendProvides_ports dnode p).1⟩ c
                have hcomp : (m.step (.exposeProvides c0 p)).components
                    = odSet m.components pname (dnode.appendProvides p) := by
                  by_cases hcon : ((dnode.appendProvides p).label_for_provides, p)
                      ∈ m.connected_consumers <;>
                    simp [Mesh.step, Mesh.apply, Mesh.expose_component_provides_port,
                      Mesh.addBetween, Node.provides_ports, hl, hnp, hpar, hd, hmem, hmem2, hcon]
                refine portsExtend_trans c h1 ?_
                have hsame := portsExtend_same
                  { m with components := odSet m.components pname (dnode.appendProvides p) }
                  (m.step (.exposeProvides c0 p)) hcomp c
                exact ⟨⟨[], by simp [hsame.1]⟩, ⟨[], by simp [hsame.2]⟩⟩
        · exact same _ (by simp [Mesh.step, Mesh.apply, Mesh.expose_component_provides_port,
            Node.provides_ports, hl, hnp])
  | highlightComponent c0 =>
    cases hl : odLookup m.components c0 with
    | none => exact same _ (by simp [Mesh.step, Mesh.apply, Mesh.highlight_component, hl])
    | some node =>
      have hstep : m.step (.highlightComponent c0)
          = { m with components := odSet m.components c0 node.setHighlighted } := by
        simp [Mesh.step, Mesh.apply, Mesh.highlight_component, hl]
      rw [hstep]
      exact portsExtend_odSet m _ c0 node.setHighlighted node rfl hl
        ⟨[], by simp [(setHighlighted_ports node).1]⟩
        ⟨[], by simp [(setHighlighted_ports node).2]⟩ c
  | highlightConnection cc cp pc pp =>
    refine same _ ?_
    cases hl : odLookup m.connections ((cc, cp), .anchor pc pp) with
    | none => simp [Mesh.step, Mesh.apply, Mesh.highlight_connection, hl]
    | some cn => simp [Mesh.step, Mesh.apply, Mesh.highlight_connection, hl]
  | highlightConnectionToResource cc cp r =>
    refine same _ ?_
    cases hl : odLookup m.connections ((cc, cp), .res r) with
    | none => simp [Mesh.step, Mesh.apply, Mesh.highlight_connection_to_resource, hl]
    | some cn => simp [Mesh.step, Mesh.apply, Mesh.highlight_connection_to_resource, hl]
  | highlightResource r =>
    refine same _ ?_
    by_cases h : r ∈ m.resources <;> simp [Mesh.step, Mesh.apply, Mesh.highlight_resource, h]

/-- C7: the snapshot lists every node's needs-ports and provides-ports
in exactly insertion order, independently of each other: no operation
ever removes or reorders a stored port list (it only appends), a
successful port addition appends exactly that port to its own list and
leaves the other list untouched, and the snapshot reproduces both
stored lists verbatim. -/
theorem snapshot_ports_insertion_order (m : Mesh) (o : Op) (c q : String) :
    ((∃ t, (m.step o).needsOf c = m.needsOf c ++ t) ∧
      (∃ t, (m.step o).providesOf c = m.providesOf c ++ t)) ∧
    ((m.add_needs_port c q).1 = none →
      (m.add_needs_port c q).2.needsOf c = m.needsOf c ++ [q] ∧
      (m.add_needs_port c q).2.providesOf c = m.providesOf c) ∧
    ((m.add_provides_port c q).1 = none →
      (m.add_provides_port c q).2.providesOf c = m.providesOf c ++ [q] ∧
      (m.add_provides_port c q).2.needsOf c = m.needsOf c) ∧
    (∀ cn : ComponentNode, odLookup m.components c = some (.comp cn) →
      cn.as_dict ∈ m.as_dict.components ∧
      cn.as_dict.needs_ports = m.needsOf c ∧ cn.as_dict.provides_ports = m.providesOf c) ∧
    (∀ dnn : DomainNode, odLookup m.components c = some (.dom dnn) →
      dnn.as_dict ∈ m.as_dict.domains ∧
      dnn.as_dict.needs_ports = m.needsOf c ∧ dnn.as_dict.provides_ports = m.providesOf c) := by
  refine ⟨step_portsExtend m o c, ?_, ?_, ?_, ?_⟩
  · intro h
    cases hl : odLookup m.components c with
    | none => simp [Mesh.add_needs_port, hl] at h
    | some node =>
      cases ha : node.add_needs_port q with
      | error e => simp [Mesh.add_needs_port, hl, ha] at h
      | ok node' =>
        have hports := add_needs_port_ok node node' q ha
        constructor
        · simp [Mesh.add_needs_port, hl, ha, Mesh.needsOf, odLookup_odSet_self, hports.1]
        · simp [Mesh.add_needs_port, hl, ha, Mesh.providesOf, odLookup_odSet_self, hports.2]
  · intro h
    cases hl : odLookup m.components c with
    | none => simp [Mesh.add_provides_port, hl] at h
    | some node =>
      cases ha : node.add_provides_port q with
      | error e => simp [Mesh.add_provides_port, hl, ha] at h
      | ok node' =>
        have hports := add_provides_port_ok node node' q ha
        constructor
        · simp [Mesh.add_provides_port, hl, ha, Mesh.providesOf, odLookup_odSet_self, hports.1]
        · simp [Mesh.add_provides_port, hl, ha, Mesh.needsOf, odLookup_odSet_self, hports.2]
  · intro cn hl
    refine ⟨?_, ?_, ?_⟩
    · have hm := mem_of_odLookup _ _ _ hl
      simp only [Mesh.as_dict]
      exact List.mem_filterMap.mpr ⟨(c, .comp cn), hm, rfl⟩
    · simp [ComponentNode.as_dict, Mesh.needsOf, hl, Node.needs_ports]
    · simp [ComponentNode.as_dict, Mesh.providesOf, hl, Node.provides_ports]
  · intro dnn hl
    refine ⟨?_, ?_, ?_⟩
    · have hm := mem_of_odLookup _ _ _ hl
      simp only [Mesh.as_dict]
      exact List.mem_filterMap.mpr ⟨(c, .dom dnn), hm, rfl⟩
    · simp [DomainNode.as_dict, Mesh.needsOf, hl, Node.needs_ports]
    · simp [DomainNode.as_dict, Mesh.providesOf, hl, Node.provides_ports]

theorem snapshot_ports_insertion_order_witness :
    ((Mesh.empty.step (.addComponent "A" ["x"] [])).add_needs_port "A" "y").2.needsOf "A"
      = (Mesh.empty.step (.addComponent "A" ["x"] [])).needsOf "A" ++ ["y"] ∧
    (⟨"A", ["x"], [], false, none⟩ : ComponentNode).as_dict
      ∈ (Mesh.empty.step (.addComponent "A" ["x"] [])).as_dict.components :=
  ⟨((snapshot_ports_insertion_order (Mesh.empty.step (.addComponent "A" ["x"] []))
      (.addNeedsPort "A" "y") "A" "y").2.1 (by decide)).1,
    ((snapshot_ports_insertion_order (Mesh.empty.step (.addComponent "A" ["x"] []))
      (.addNeedsPort "A" "y") "A" "y").2.2.2.1 ⟨"A", ["x"], [], false, none⟩ (by decide)).1⟩

/-! ### C8 — reordering independent operations -/

theorem updComp_absent (m : Mesh) (c : String) (g : Node → Option Node)
    (h : odLookup m.components c = none) : updComp m c g = m := by
  simp [updComp, h]

theorem updComp_declined (m : Mesh) (c : String) (g : Node → Option Node) (n : Node)
    (hc : odLookup m.components c = some n) (hg : g n = none) : updComp m c g = m := by
  simp [updComp, hc, hg]

theorem updComp_applies (m : Mesh) (c : String) (g : Node → Option Node) (n n' : Node)
    (hc : odLookup m.components c = some n) (hg : g n = some n') :
    updComp m c g = { m with components := odSet m.components c n' } := by
  simp [updComp, hc, hg]

theorem updComp_components_lookup_ne (m : Mesh) (c x : String) (g : Node → Option Node)
    (h : c ≠ x) : odLookup (updComp m c g).components x = odLookup m.components x := by
  cases hc : odLookup m.components c with
  | none => simp [updComp, hc]
  | some n =>
    cases hg : g n with
    | none => simp [updComp, hc, hg]
    | some n' => simp [updComp, hc, hg, odLookup_odSet_ne _ _ _ _ h]

theorem updComp_fields (m : Mesh) (c : String) (g : Node → Option Node) :
    (updComp m c g).connections = m.connections ∧
    (updComp m c g).resources = m.resources ∧
    (updComp m c g).highlighted_resource = m.highlighted_resource ∧
    (updComp m c g).connected_consumers = m.connected_consumers := by
  cases hc : odLookup m.components c with
  | none => simp [updComp, hc]
  | some n =>
    cases hg : g n with
    | none => simp [updComp, hc, hg]
    | some n' => simp [updComp, hc, hg]

theorem updConn_absent (m : Mesh) (k : ConnKey)
    (h : odLookup m.connections k = none) : updConn m k = m := by
  simp [updConn, h]

theorem updConn_applies (m : Mesh) (k : ConnKey) (cn : ConnectionNode)
    (h : odLookup m.connections k = some cn) :
    updConn m k = { m with connections := odSet m.connections k cn.setHighlighted } := by
  simp [updConn, h]

theorem updConn_connections_lookup_ne (m : Mesh) (k k' : ConnKey) (h : k ≠ k') :
    odLookup (updConn m k).connections k' = odLookup m.connections k' := by
  cases hk : odLookup m.connections k with
  | none => simp [updConn, hk]
  | some cn => simp [updConn, hk, odLookup_odSet_ne _ _ _ _ h]

theorem updConn_fields (m : Mesh) (k : ConnKey) :
    (updConn m k).components = m.components ∧
    (updConn m k).resources = m.resources ∧
    (updConn m k).highlighted_resource = m.highlighted_resource ∧
    (updConn m k).connected_consumers = m.connected_consumers := by
  cases hk : odLookup m.connections k with
  | none => simp [updConn, hk]
  | some cn => simp [updConn, hk]

theorem updComp_comm (m : Mesh) (c c' : String) (g g' : Node → Option Node) (h : c ≠ c') :
    updComp (updComp m c g) c' g' = updComp (updComp m c' g') c g := by
  have L1 : odLookup (updComp m c g).components c' = odLookup m.components c' :=
    updComp_components_lookup_ne m c c' g h
  have L2 : odLookup (updComp m c' g').components c = odLookup m.components c :=
    updComp_components_lookup_ne m c' c g' (Ne.symm h)
  cases hc : odLookup m.components c with
  | none =>
    rw [updComp_absent m c g hc, updComp_absent (updComp m c' g') c g (L2.trans hc)]
  | some n =>
    cases hg : g n with
    | none =>
      rw [updComp_declined m c g n hc hg,
        updComp_declined (updComp m c' g') c g n (L2.trans hc) hg]
    | some n1 =>
      cases hc' : odLookup m.components c' with
      | none =>
        rw [updComp_absent m c' g' hc', updComp_absent (updComp m c g) c' g' (L1.trans hc')]
      | some n2 =>
        cases hg' : g' n2 with
        | none =>
          rw [updComp_declined m c' g' n2 hc' hg',
            updComp_declined (updComp m c g) c' g' n2 (L1.trans hc') hg']
        | some n3 =>
          have E1 : updComp m c g = { m with components := odSet m.components c n1 } :=
            updComp_applies m c g n n1 hc hg
          have E2 : updComp m c' g' = { m with components := odSet m.components c' n3 } :=
            updComp_applies m c' g' n2 n3 hc' hg'
          have F1 : odLookup ({ m with components := odSet m.components c n1 } : Mesh).components c'
              = some n2 := by
            show odLookup (odSet m.components c n1) c' = some n2
            rw [odLookup_odSet_ne _ _ _ _ h]
            exact hc'
          have F2 : odLookup ({ m with components := odSet m.components c' n3 } : Mesh).components c
              = some n := by
            show odLookup (odSet m.components c' n3) c = some n
            rw [odLookup_odSet_ne _ _ _ _ (Ne.symm h)]
            exact hc
          rw [E1, E2, updComp_applies _ c' g' n2 n3 F1 hg', updComp_applies _ c g n n1 F2 hg]
          show ({ m with components := odSet (odSet m.components c n1) c' n3 } : Mesh)
            = { m with components := odSet (odSet m.components c' n3) c n1 }
          rw [odSet_odSet_comm _ _ _ _ _ h (by rw [hc]; rfl)]

theorem updConn_comm (m : Mesh) (k k' : ConnKey) (h : k ≠ k') :
    updConn (updConn m k) k' = updConn (updConn m k') k := by
  have L1 : odLookup (updConn m k).connections k' = odLookup m.connections k' :=
    updConn_connections_lookup_ne m k k' h
  have L2 : odLookup (updConn m k').connections k = odLookup m.connections k :=
    updConn_connections_lookup_ne m k' k (Ne.symm h)
  cases hk : odLookup m.connections k with
  | none =>
    rw [updConn_absent m k hk, updConn_absent (updConn m k') k (L2.trans hk)]
  | some cn =>
    cases hk' : odLookup m.connections k' with
    | none =>
      rw [updConn_absent m k' hk', updConn_absent (updConn m k) k' (L1.trans hk')]
    | some cn' =>
      have E1 : updConn m k = { m with connections := odSet m.connections k cn.setHighlighted } :=
        updConn_applies m k cn hk
      have E2 : updConn m k'
          = { m with connections := odSet m.connections k' cn'.setHighlighted } :=
        updConn_applies m k' cn' hk'
      have F1 : odLookup
          ({ m with connections := odSet m.connections k cn.setHighlighted } : Mesh).connections k'
          = some cn' := by
        show odLookup (odSet m.connections k cn.setHighlighted) k' = some cn'
        rw [odLookup_odSet_ne _ _ _ _ h]
        exact hk'
      have F2 : odLookup
          ({ m with connections := odSet m.connections k' cn'.setHighlighted } : Mesh).connections k
          = some cn := by
        show odLookup (odSet m.connections k' cn'.setHighlighted) k = some cn
        rw [odLookup_odSet_ne _ _ _ _ (Ne.symm h)]
        exact hk
      rw [E1, E2, updConn_applies _ k' cn' F1, updConn_applies _ k cn F2]
      show ({ m with
          connections := odSet (odSet m.connections k cn.setHighlighted) k' cn'.setHighlighted } : Mesh)
        = { m with
          connections := odSet (odSet m.connections k' cn'.setHighlighted) k cn.setHighlighted }
      rw [odSet_odSet_comm _ _ _ _ _ h (by rw [hk]; rfl)]

theorem updComp_updConn_comm (m : Mesh) (c : String) (g : Node → Option Node) (k : ConnKey) :
    updComp (updConn m k) c g = updConn (updComp m c g) k := by
  cases hk : odLookup m.connections k with
  | none =>
    rw [updConn_absent m k hk,
      updConn_absent (updComp m c g) k (by rw [(updComp_fields m c g).1]; exact hk)]
  | some cn =>
    rw [updConn_applies m k cn hk]
    cases hc : odLookup m.components c with
    | none =>
      rw [updComp_absent
          { m with connections := odSet m.connections k cn.setHighlighted } c g hc,
        updComp_absent m c g hc, updConn_applies m k cn hk]
    | some n =>
      cases hg : g n with
      | none =>
        rw [updComp_declined
            { m with connections := odSet m.connections k cn.setHighlighted } c g n hc hg,
          updComp_declined m c g n hc hg, updConn_applies m k cn hk]
      | some n' =>
        rw [updComp_applies
            { m with connections := odSet m.connections k cn.setHighlighted } c g n n' hc hg,
          updComp_applies m c g n n' hc hg,
          updConn_applies { m with components := odSet m.components c n' } k cn hk]

theorem step_addNeedsPort_char (m : Mesh) (c p : String) :
    m.step (.addNeedsPort c p)
      = updComp m c (fun n => match n.add_needs_port p with
          | .ok n' => some n'
          | .error _ => none) := by
  cases hl : odLookup m.components c with
  | none => simp [Mesh.step, Mesh.apply, Mesh.add_needs_port, updComp, hl]
  | some node =>
    cases ha : node.add_needs_port p with
    | error e => simp [Mesh.step, Mesh.apply, Mesh.add_needs_port, updComp, hl, ha]
    | ok n' => simp [Mesh.step, Mesh.apply, Mesh.add_needs_port, updComp, hl, ha]

theorem step_addProvidesPort_char (m : Mesh) (c p : String) :
    m.step (.addProvidesPort c p)
      = updComp m c (fun n => match n.add_provides_port p with
          | .ok n' => some n'
          | .error _ => none) := by
  cases hl : odLookup m.components c with
  | none => simp [Mesh.step, Mesh.apply, Mesh.add_provides_port, updComp, hl]
  | some node =>
    cases ha : node.add_provides_port p with
    | error e => simp [Mesh.step, Mesh.apply, Mesh.add_provides_port, updComp, hl, ha]
    | ok n' => simp [Mesh.step, Mesh.apply, Mesh.add_provides_port, updComp, hl, ha]

theorem step_highlightComponent_char (m : Mesh) (c : String) :
    m.step (.highlightComponent c) = updComp m c (fun n => some n.setHighlighted) := by
  cases hl : odLookup m.components c with
  | none => simp [Mesh.step, Mesh.apply, Mesh.highlight_component, updComp, hl]
  | some node => simp [Mesh.step, Mesh.apply, Mesh.highlight_component, updComp, hl]

theorem step_highlightConnection_char (m : Mesh) (cc cp pc pp : String) :
    m.step (.highlightConnection cc cp pc pp) = updConn m ((cc, cp), .anchor pc pp) := by
  cases hl : odLookup m.connections ((cc, cp), .anchor pc pp) with
  | none => simp [Mesh.step, Mesh.apply, Mesh.highlight_connection, updConn, hl]
  | some cn => simp [Mesh.step, Mesh.apply, Mesh.highlight_connection, updConn, hl]

theorem step_highlightConnectionToResource_char (m : Mesh) (cc cp r : String) :
    m.step (.highlightConnectionToResource cc cp r) = updConn m ((cc, cp), .res r) := by
  cases hl : odLookup m.connections ((cc, cp), .res r) with
  | none => simp [Mesh.step, Mesh.apply, Mesh.highlight_connection_to_resource, updConn, hl]
  | some cn => simp [Mesh.step, Mesh.apply, Mesh.highlight_connection_to_resource, updConn, hl]

theorem step_highlightResource_char (m : Mesh) (r : String) :
    m.step (.highlightResource r)
      = if r ∈ m.resources
        then { m with highlighted_resource := setInsert m.highlighted_resource r }
        else m := by
  by_cases h : r ∈ m.resources <;> simp [Mesh.step, Mesh.apply, Mesh.highlight_resource, h]

theorem updComp_HR_comm (m : Mesh) (c : String) (g : Node → Option Node) (r : String) :
    updComp (m.step (.highlightResource r)) c g = (updComp m c g).step (.highlightResource r) := by
  rw [step_highlightResource_char, step_highlightResource_char]
  have hres : (updComp m c g).resources = m.resources := (updComp_fields m c g).2.1
  by_cases h : r ∈ m.resources
  · rw [if_pos h, if_pos (by rw [hres]; exact h)]
    cases hc : odLookup m.components c with
    | none =>
      rw [updComp_absent { m with highlighted_resource := setInsert m.highlighted_resource r }
          c g hc, updComp_absent m c g hc]
    | some n =>
      cases hg : g n with
      | none =>
        rw [updComp_declined { m with highlighted_resource := setInsert m.highlighted_resource r }
            c g n hc hg, updComp_declined m c g n hc hg]
      | some n' =>
        rw [updComp_applies { m with highlighted_resource := setInsert m.highlighted_resource r }
            c g n n' hc hg, updComp_applies m c g n n' hc hg]
  · rw [if_neg h, if_neg (by rw [hres]; exact h)]

theorem updConn_HR_comm (m : Mesh) (k : ConnKey) (r : String) :
    updConn (m.step (.highlightResource r)) k = (updConn m k).step (.highlightResource r) := by
  rw [step_highlightResource_char, step_highlightResource_char]
  have hres : (updConn m k).resources = m.resources := (updConn_fields m k).2.1
  by_cases h : r ∈ m.resources
  · rw [if_pos h, if_pos (by rw [hres]; exact h)]
    cases hk : odLookup m.connections k with
    | none =>
      rw [updConn_absent { m with highlighted_resource := setInsert m.highlighted_resource r }
          k hk, updConn_absent m k hk]
    | some cn =>
      rw [updConn_applies { m with highlighted_resource := setInsert m.highlighted_resource r }
          k cn hk, updConn_applies m k cn hk]
  · rw [if_neg h, if_neg (by rw [hres]; exact h)]

/-- `add_component_to_domain` as a composition of in-place updates:
first the parent link on the child, then (for a real domain) the
children set on the domain. -/
theorem step_AD_char (m : Mesh) (c d : String) :
    m.step (.addComponentToDomain c d)
      = (match odLookup m.components c, odLookup m.components d with
        | some (.comp comp), some _ =>
          if pyTruthy comp.parent then m
          else
            updComp (updComp m c (fun _ => some (.comp { comp with parent := some d }))) d
              (fun nd => match nd with
                | .dom dn =>
                  if c ∈ dn.children then none
                  else some (.dom { dn with children := setInsert dn.children c })
                | .comp _ => none)
        | _, _ => m) := by
  cases hc : odLookup m.components c with
  | none =>
    cases hd : odLookup m.components d with
    | none => simp [Mesh.step, Mesh.apply, Mesh.add_component_to_domain, hc, hd]
    | some dnode => simp [Mesh.step, Mesh.apply, Mesh.add_component_to_domain, hc, hd]
  | some node =>
    cases node with
    | dom dn =>
      cases hd : odLookup m.components d with
      | none => simp [Mesh.step, Mesh.apply, Mesh.add_component_to_domain, hc, hd]
      | some dnode => simp [Mesh.step, Mesh.apply, Mesh.add_component_to_domain, hc, hd]
    | comp comp =>
      by_cases hpar : pyTruthy comp.parent = true
      · cases hd : odLookup m.components d with
        | none => simp [Mesh.step, Mesh.apply, Mesh.add_component_to_domain, hc, hd, hpar]
        | some dnode => simp [Mesh.step, Mesh.apply, Mesh.add_component_to_domain, hc, hd, hpar]
      · cases hd : odLookup m.components d with
        | none => simp [Mesh.step, Mesh.apply, Mesh.add_component_to_domain, hc, hd, hpar]
        | some dnode =>
          by_cases hcd : c = d
          · subst hcd
            rw [hc] at hd
            injection hd with hd'
            subst hd'
            simp [Mesh.step, Mesh.apply, Mesh.add_component_to_domain, updComp,
              hc, hpar, odLookup_odSet_self]
          · cases dnode with
            | comp dc =>
              simp [Mesh.step, Mesh.apply, Mesh.add_component_to_domain, updComp,
                hc, hd, hpar, odLookup_odSet_ne _ _ _ _ hcd]
            | dom dn =>
              by_cases hch : c ∈ dn.children
              · simp [Mesh.step, Mesh.apply, Mesh.add_component_to_domain, updComp,
                  hc, hd, hpar, hch, odLookup_odSet_ne _ _ _ _ hcd]
              · simp [Mesh.step, Mesh.apply, Mesh.add_component_to_domain, updComp,
                  hc, hd, hpar, hch, odLookup_odSet_ne _ _ _ _ hcd]

theorem step_HR_components (m : Mesh) (r : String) :
    (m.step (.highlightResource r)).components = m.components := by
  rw [step_highlightResource_char]
  split <;> rfl

theorem step_AD_components_lookup_ne (m : Mesh) (c d x : String)
    (hxc : x ≠ c) (hxd : x ≠ d) :
    odLookup (m.step (.addComponentToDomain c d)).components x = odLookup m.components x := by
  rw [step_AD_char]
  split
  · split
    · rfl
    · rw [updComp_components_lookup_ne _ _ _ _ (Ne.symm hxd),
        updComp_components_lookup_ne _ _ _ _ (Ne.symm hxc)]
  · rfl

theorem AD_updComp_comm (m : Mesh) (c d x : String) (g : Node → Option Node)
    (hxc : x ≠ c) (hxd : x ≠ d) :
    updComp (m.step (.addComponentToDomain c d)) x g
      = (updComp m x g).step (.addComponentToDomain c d) := by
  rw [step_AD_char m c d, step_AD_char (updComp m x g) c d,
    updComp_components_lookup_ne m x c g hxc, updComp_components_lookup_ne m x d g hxd]
  split
  · split
    · rfl
    · rw [updComp_comm m x c g _ hxc, updComp_comm (updComp m c _) x d g _ hxd]
  · rfl

theorem AD_updConn_comm (m : Mesh) (c d : String) (k : ConnKey) :
    updConn (m.step (.addComponentToDomain c d)) k
      = (updConn m k).step (.addComponentToDomain c d) := by
  rw [step_AD_char m c d, step_AD_char (updConn m k) c d, (updConn_fields m k).1]
  split
  · split
    · rfl
    · rw [← updComp_updConn_comm (updComp m c _) d _ k, ← updComp_updConn_comm m c _ k]
  · rfl

theorem AD_HR_comm (m : Mesh) (c d r : String) :
    (m.step (.highlightResource r)).step (.addComponentToDomain c d)
      = (m.step (.addComponentToDomain c d)).step (.highlightResource r) := by
  rw [step_AD_char (m.step (.highlightResource r)) c d, step_HR_components m r,
    step_AD_char m c d]
  split
  · split
    · rfl
    · rw [updComp_HR_comm m c _ r, updComp_HR_comm (updComp m c _) d _ r]
  · rfl

theorem AD_AD_comm (m : Mesh) (c1 d1 c2 d2 : String)
    (h1 : c2 ≠ c1) (h2 : c2 ≠ d1) (h3 : d2 ≠ c1) (h4 : d2 ≠ d1) :
    (m.step (.addComponentToDomain c1 d1)).step (.addComponentToDomain c2 d2)
      = (m.step (.addComponentToDomain c2 d2)).step (.addComponentToDomain c1 d1) := by
  rw [step_AD_char (m.step (.addComponentToDomain c1 d1)) c2 d2,
    step_AD_char (m.step (.addComponentToDomain c2 d2)) c1 d1]
  rw [step_AD_components_lookup_ne m c1 d1 c2 h1 h2,
    step_AD_components_lookup_ne m c1 d1 d2 h3 h4,
    step_AD_components_lookup_ne m c2 d2 c1 h1.symm h3.symm,
    step_AD_components_lookup_ne m c2 d2 d1 h2.symm h4.symm]
  rw [step_AD_char m c1 d1, step_AD_char m c2 d2]
  split
  · split
    · rfl
    · split
      · split
        · rfl
        · rw [updComp_comm _ d2 c1 _ _ h3, updComp_comm m c2 c1 _ _ h1,
            updComp_comm _ d2 d1 _ _ h4, updComp_comm _ c2 d1 _ _ h2]
      · rfl
  · rfl

/-- Adjacent independent update operations commute at the state level. -/
theorem indep_step_comm (m : Mesh) (o1 o2 : Op) (h : o1.indepUpdates o2) :
    (m.step o1).step o2 = (m.step o2).step o1 := by
  obtain ⟨h1, h2, hdisj, hhr⟩ := h
  cases o1 with
  | addComponent n ns ps => simp [Op.updateOnly] at h1
  | addDomain n => simp [Op.updateOnly] at h1
  | addResource n => simp [Op.updateOnly] at h1
  | addConnection a b c d => simp [Op.updateOnly] at h1
  | addConnectionToResource a b c => simp [Op.updateOnly] at h1
  | exposeNeeds a b => simp [Op.updateOnly] at h1
  | exposeProvides a b => simp [Op.updateOnly] at h1
  | addNeedsPort c1 p1 =>
    cases o2 with
    | addComponent n ns ps => simp [Op.updateOnly] at h2
    | addDomain n => simp [Op.updateOnly] at h2
    | addResource n => simp [Op.updateOnly] at h2
    | addConnection a b c d => simp [Op.updateOnly] at h2
    | addConnectionToResource a b c => simp [Op.updateOnly] at h2
    | exposeNeeds a b => simp [Op.updateOnly] at h2
    | exposeProvides a b => simp [Op.updateOnly] at h2
    | addNeedsPort c2 p2 =>
      have hne : c1 ≠ c2 := by
        have hx := hdisj c1 (by simp [Op.touchedNames])
        simpa [Op.touchedNames] using hx
      simp only [step_addNeedsPort_char]
      exact updComp_comm _ _ _ _ _ hne
    | addProvidesPort c2 p2 =>
      have hne : c1 ≠ c2 := by
        have hx := hdisj c1 (by simp [Op.touchedNames])
        simpa [Op.touchedNames] using hx
      simp only [step_addNeedsPort_char, step_addProvidesPort_char]
      exact updComp_comm _ _ _ _ _ hne
    | highlightComponent c2 =>
      have hne : c1 ≠ c2 := by
        have hx := hdisj c1 (by simp [Op.touchedNames])
        simpa [Op.touchedNames] using hx
      simp only [step_addNeedsPort_char, step_highlightComponent_char]
      exact updComp_comm _ _ _ _ _ hne
    | addComponentToDomain c2 d2 =>
      have hx := hdisj c1 (by simp [Op.touchedNames])
      simp [Op.touchedNames] at hx
      simp only [step_addNeedsPort_char]
      exact (AD_updComp_comm _ _ _ _ _ hx.1 hx.2).symm
    | highlightConnection cc2 cp2 pc2 pp2 =>
      simp only [step_addNeedsPort_char, step_highlightConnection_char]
      exact (updComp_updConn_comm _ _ _ _).symm
    | highlightConnectionToResource cc2 cp2 r2 =>
      simp only [step_addNeedsPort_char, step_highlightConnectionToResource_char]
      exact (updComp_updConn_comm _ _ _ _).symm
    | highlightResource r2 =>
      simp only [step_addNeedsPort_char]
      exact (updComp_HR_comm _ _ _ _).symm
  | addProvidesPort c1 p1 =>
    cases o2 with
    | addComponent n ns ps => simp [Op.updateOnly] at h2
    | addDomain n => simp [Op.updateOnly] at h2
    | addResource n => simp [Op.updateOnly] at h2
    | addConnection a b c d => simp [Op.updateOnly] at h2
    | addConnectionToResource a b c => simp [Op.updateOnly] at h2
    | exposeNeeds a b => simp [Op.updateOnly] at h2
    | exposeProvides a b => simp [Op.updateOnly] at h2
    | addNeedsPort c2 p2 =>
      have hne : c1 ≠ c2 := by
        have hx := hdisj c1 (by simp [Op.touchedNames])
        simpa [Op.touchedNames] using hx
      simp only [step_addNeedsPort_char, step_addProvidesPort_char]
      exact updComp_comm _ _ _ _ _ hne
    | addProvidesPort c2 p2 =>
      have hne : c1 ≠ c2 := by
        have hx := hdisj c1 (by simp [Op.touchedNames])
        simpa [Op.touchedNames] using hx
      simp only [step_addProvidesPort_char]
      exact updComp_comm _ _ _ _ _ hne
    | highlightComponent c2 =>
      have hne : c1 ≠ c2 := by
        have hx := hdisj c1 (by simp [Op.touchedNames])
        simpa [Op.touchedNames] using hx
      simp only [step_addProvidesPort_char, step_highlightComponent_char]
      exact updComp_comm _ _ _ _ _ hne
    | addComponentToDomain c2 d2 =>
      have hx := hdisj c1 (by simp [Op.touchedNames])
      simp [Op.touchedNames] at hx
      simp only [step_addProvidesPort_char]
      exact (AD_updComp_comm _ _ _ _ _ hx.1 hx.2).symm
    | highlightConnection cc2 cp2 pc2 pp2 =>
      simp only [step_addProvidesPort_char, step_highlightConnection_char]
      exact (updComp_updConn_comm _ _ _ _).symm
    | highlightConnectionToResource cc2 cp2 r2 =>
      simp only [step_addProvidesPort_char, step_highlightConnectionToResource_char]
      exact (updComp_updConn_comm _ _ _ _).symm
    | highlightResource r2 =>
      simp only [step_addProvidesPort_char]
      exact (updComp_HR_comm _ _ _ _).symm
  | highlightComponent c1 =>
    cases o2 with
    | addComponent n ns ps => simp [Op.updateOnly] at h2
    | addDomain n => simp [Op.updateOnly] at h2
    | addResource n => simp [Op.updateOnly] at h2
    | addConnection a b c d => simp [Op.updateOnly] at h2
    | addConnectionToResource a b c => simp [Op.updateOnly] at h2
    | exposeNeeds a b => simp [Op.updateOnly] at h2
    | exposeProvides a b => simp [Op.updateOnly] at h2
    | addNeedsPort c2 p2 =>
      have hne : c1 ≠ c2 := by
        have hx := hdisj c1 (by simp [Op.touchedNames])
        simpa [Op.touchedNames] using hx
      simp only [step_highlightComponent_char, step_addNeedsPort_char]
      exact updComp_comm _ _ _ _ _ hne
    | addProvidesPort c2 p2 =>
      have hne : c1 ≠ c2 := by
        have hx := hdisj c1 (by simp [Op.touchedNames])
        simpa [Op.touchedNames] using hx
      simp only [step_highlightComponent_char, step_addProvidesPort_char]
      exact updComp_comm _ _ _ _ _ hne
    | highlightComponent c2 =>
      have hne : c1 ≠ c2 := by
        have hx := hdisj c1 (by simp [Op.touchedNames])
        simpa [Op.touchedNames] using hx
      simp only [step_highlightComponent_char]
      exact updComp_comm _ _ _ _ _ hne
    | addComponentToDomain c2 d2 =>
      have hx := hdisj c1 (by simp [Op.touchedNames])
      simp [Op.touchedNames] at hx
      simp only [step_highlightComponent_char]
      exact (AD_updComp_comm _ _ _ _ _ hx.1 hx.2).symm
    | highlightConnection cc2 cp2 pc2 pp2 =>
      simp only [step_highlightComponent_char, step_highlightConnection_char]
      exact (updComp_updConn_comm _ _ _ _).symm
    | highlightConnectionToResource cc2 cp2 r2 =>
      simp only [step_highlightComponent_char, step_highlightConnectionToResource_char]
      exact (updComp_updConn_comm _ _ _ _).symm
    | highlightResource r2 =>
      simp only [step_highlightComponent_char]
      exact (updComp_HR_comm _ _ _ _).symm
  | addComponentToDomain c1 d1 =>
    cases o2 with
    | addComponent n ns ps => simp [Op.updateOnly] at h2
    | addDomain n => simp [Op.updateOnly] at h2
    | addResource n => simp [Op.updateOnly] at h2
    | addConnection a b c d => simp [Op.updateOnly] at h2
    | addConnectionToResource a b c => simp [Op.updateOnly] at h2
    | exposeNeeds a b => simp [Op.updateOnly] at h2
    | exposeProvides a b => simp [Op.updateOnly] at h2
    | addNeedsPort c2 p2 =>
      have ha := hdisj c1 (by simp [Op.touchedNames])
      have hb := hdisj d1 (by simp [Op.touchedNames])
      simp [Op.touchedNames] at ha hb
      simp only [step_addNeedsPort_char]
      exact AD_updComp_comm _ _ _ _ _ (Ne.symm ha) (Ne.symm hb)
    | addProvidesPort c2 p2 =>
      have ha := hdisj c1 (by simp [Op.touchedNames])
      have hb := hdisj d1 (by simp [Op.touchedNames])
      simp [Op.touchedNames] at ha hb
      simp only [step_addProvidesPort_char]
      exact AD_updComp_comm _ _ _ _ _ (Ne.symm ha) (Ne.symm hb)
    | highlightComponent c2 =>
      have ha := hdisj c1 (by simp [Op.touchedNames])
      have hb := hdisj d1 (by simp [Op.touchedNames])
      simp [Op.touchedNames] at ha hb
      simp only [step_highlightComponent_char]
      exact AD_updComp_comm _ _ _ _ _ (Ne.symm ha) (Ne.symm hb)
    | addComponentToDomain c2 d2 =>
      have ha := hdisj c1 (by simp [Op.touchedNames])
      have hb := hdisj d1 (by simp [Op.touchedNames])
      simp [Op.touchedNames] at ha hb
      exact AD_AD_comm _ _ _ _ _ (Ne.symm ha.1) (Ne.symm hb.1) (Ne.symm ha.2) (Ne.symm hb.2)
    | highlightConnection cc2 cp2 pc2 pp2 =>
      simp only [step_highlightConnection_char]
      exact AD_updConn_comm _ _ _ _
    | highlightConnectionToResource cc2 cp2 r2 =>
      simp only [step_highlightConnectionToResource_char]
      exact AD_updConn_comm _ _ _ _
    | highlightResource r2 =>
      exact (AD_HR_comm _ _ _ _).symm
  | highlightConnection cc1 cp1 pc1 pp1 =>
    cases o2 with
    | addComponent n ns ps => simp [Op.updateOnly] at h2
    | addDomain n => simp [Op.updateOnly] at h2
    | addResource n => simp [Op.updateOnly] at h2
    | addConnection a b c d => simp [Op.updateOnly] at h2
    | addConnectionToResource a b c => simp [Op.updateOnly] at h2
    | exposeNeeds a b => simp [Op.updateOnly] at h2
    | exposeProvides a b => simp [Op.updateOnly] at h2
    | addNeedsPort c2 p2 =>
      simp only [step_highlightConnection_char, step_addNeedsPort_char]
      exact updComp_updConn_comm _ _ _ _
    | addProvidesPort c2 p2 =>
      simp only [step_highlightConnection_char, step_addProvidesPort_char]
      exact updComp_updConn_comm _ _ _ _
    | highlightComponent c2 =>
      simp only [step_highlightConnection_char, step_highlightComponent_char]
      exact updComp_updConn_comm _ _ _ _
    | addComponentToDomain c2 d2 =>
      simp only [step_highlightConnection_char]
      exact (AD_updConn_comm _ _ _ _).symm
    | highlightConnection cc2 cp2 pc2 pp2 =>
      have hx := hdisj cc1 (by simp [Op.touchedNames])
      simp [Op.touchedNames] at hx
      simp only [step_highlightConnection_char]
      exact updConn_comm _ _ _ (by simp [hx.1])
    | highlightConnectionToResource cc2 cp2 r2 =>
      simp only [step_highlightConnection_char, step_highlightConnectionToResource_char]
      exact updConn_comm _ _ _ (by simp)
    | highlightResource r2 =>
      simp only [step_highlightConnection_char]
      exact (updConn_HR_comm _ _ _).symm
  | highlightConnectionToResource cc1 cp1 r1 =>
    cases o2 with
    | addComponent n ns ps => simp [Op.updateOnly] at h2
    | addDomain n => simp [Op.updateOnly] at h2
    | addResource n => simp [Op.updateOnly] at h2
    | addConnection a b c d => simp [Op.updateOnly] at h2
    | addConnectionToResource a b c => simp [Op.updateOnly] at h2
    | exposeNeeds a b => simp [Op.updateOnly] at h2
    | exposeProvides a b => simp [Op.updateOnly] at h2
    | addNeedsPort c2 p2 =>
      simp only [step_highlightConnectionToResource_char, step_addNeedsPort_char]
      exact updComp_updConn_comm _ _ _ _
    | addProvidesPort c2 p2 =>
      simp only [step_highlightConnectionToResource_char, step_addProvidesPort_char]
      exact updComp_updConn_comm _ _ _ _
    | highlightComponent c2 =>
      simp only [step_highlightConnectionToResource_char, step_highlightComponent_char]
      exact updComp_updConn_comm _ _ _ _
    | addComponentToDomain c2 d2 =>
      simp only [step_highlightConnectionToResource_char]
      exact (AD_updConn_comm _ _ _ _).symm
    | highlightConnection cc2 cp2 pc2 pp2 =>
      simp only [step_highlightConnectionToResource_char, step_highlightConnection_char]
      exact updConn_comm _ _ _ (by simp)
    | highlightConnectionToResource cc2 cp2 r2 =>
      have hx := hdisj cc1 (by simp [Op.touchedNames])
      simp [Op.touchedNames] at hx
      simp only [step_highlightConnectionToResource_char]
      exact updConn_comm _ _ _ (by simp [hx.1])
    | highlightResource r2 =>
      simp only [step_highlightConnectionToResource_char]
      exact (updConn_HR_comm _ _ _).symm
  | highlightResource r1 =>
    cases o2 with
    | addComponent n ns ps => simp [Op.updateOnly] at h2
    | addDomain n => simp [Op.updateOnly] at h2
    | addResource n => simp [Op.updateOnly] at h2
    | addConnection a b c d => simp [Op.updateOnly] at h2
    | addConnectionToResource a b c => simp [Op.updateOnly] at h2
    | exposeNeeds a b => simp [Op.updateOnly] at h2
    | exposeProvides a b => simp [Op.updateOnly] at h2
    | addNeedsPort c2 p2 =>
      simp only [step_addNeedsPort_char]
      exact updComp_HR_comm _ _ _ _
    | addProvidesPort c2 p2 =>
      simp only [step_addProvidesPort_char]
      exact updComp_HR_comm _ _ _ _
    | highlightComponent c2 =>
      simp only [step_highlightComponent_char]
      exact updComp_HR_comm _ _ _ _
    | addComponentToDomain c2 d2 =>
      exact AD_HR_comm _ _ _ _
    | highlightConnection cc2 cp2 pc2 pp2 =>
      simp only [step_highlightConnection_char]
      exact updConn_HR_comm _ _ _
    | highlightConnectionToResource cc2 cp2 r2 =>
      simp only [step_highlightConnectionToResource_char]
      exact updConn_HR_comm _ _ _
    | highlightResource r2 =>
      exact absurd ⟨rfl, rfl⟩ hhr

theorem run_append (m : Mesh) (l1 l2 : List Op) :
    m.run (l1 ++ l2) = (m.run l1).run l2 := by
  induction l1 generalizing m with
  | nil => rfl
  | cons o os ih => simp [Mesh.run, ih]

/-- C8 counterexample: two `add_component` calls with distinct names
conflict on nothing the claim declares order-sensitive, yet the
snapshot lists components in creation order, so swapping them changes
the snapshot. -/
theorem snapshot_reorder_counterexample :
    (Mesh.empty.run [.addComponent "A" [] [], .addComponent "B" [] []]).as_dict
      ≠ (Mesh.empty.run [.addComponent "B" [] [], .addComponent "A" [] []]).as_dict := by
  decide

/-- C8 (amended): creation order is also order-sensitive — the snapshot
lists components/domains, resources, connections and highlighted
resources in creation/insertion order — so only update operations may
be reordered: for any two operation sequences that differ in the order
of two adjacent update-only operations (port additions, highlights,
domain-membership additions) touching disjoint names and not both
highlighting resources, the snapshots produced by `as_dict` are
equal. -/
theorem snapshot_reorder_independent_updates (m : Mesh) (pre post : List Op) (o1 o2 : Op)
    (h : o1.indepUpdates o2) :
    (m.run (pre ++ o1 :: o2 :: post)).as_dict
      = (m.run (pre ++ o2 :: o1 :: post)).as_dict := by
  rw [run_append, run_append]
  show ((((m.run pre).step o1).step o2).run post).as_dict
    = ((((m.run pre).step o2).step o1).run post).as_dict
  rw [indep_step_comm _ _ _ h]

theorem snapshot_reorder_independent_updates_witness :
    (Mesh.empty.run ([.addComponent "A" ["x"] [], .addComponent "B" [] []]
        ++ Op.addNeedsPort "A" "y" :: Op.highlightComponent "B" :: [])).as_dict
      = (Mesh.empty.run ([.addComponent "A" ["x"] [], .addComponent "B" [] []]
        ++ Op.highlightComponent "B" :: Op.addNeedsPort "A" "y" :: [])).as_dict :=
  snapshot_reorder_independent_updates Mesh.empty
    [.addComponent "A" ["x"] [], .addComponent "B" [] []] []
    (.addNeedsPort "A" "y") (.highlightComponent "B") ⟨rfl, rfl, by decide, by decide⟩

end Hexaviz
